import Mathlib

/-!
# Verification of the EURING record codec

A shallow embedding of the `euring` Python package: wire text is modelled as
`List Char`, Python floats as exact rationals, fallible code as `Except`.
Definitions are translated from the package sources (`coordinates.py`,
`codes.py`, `field_schema.py`, `record.py`, `rules.py`, `decode.py`); the
canonical field table (`fields.py`) is not part of the sources and is
modelled from the specification where needed.
-/

namespace Euring

/-- Wire text: Python `str` modelled as a list of characters (ASCII). -/
abbrev Str := List Char

/-- Convert a Lean string literal to wire text. -/
def strOf (s : String) : Str := s.data

/-- Python `str.isdigit` (ASCII): non-empty and all digits. -/
def pyIsDigit (s : Str) : Bool := !s.isEmpty && s.all Char.isDigit

/-- Python `str.isalpha` (ASCII letters): non-empty and all letters. -/
def pyIsAlpha (s : Str) : Bool := !s.isEmpty && s.all Char.isAlpha

/-- `utils.is_all_hyphens`: non-empty and every character is a hyphen. -/
def isAllHyphens (s : Str) : Bool := !s.isEmpty && s.all (· = '-')

/-- `utils.is_empty` on strings: Python treats `None` and `""` as empty. -/
def strIsEmpty (s : Str) : Bool := s.isEmpty

/-- Python `str.zfill`: left-pad with zeros to the width, keeping a leading
sign character in front of the padding. -/
def zfill (w : Nat) (s : Str) : Str :=
  if w ≤ s.length then s
  else
    match s with
    | c :: rest =>
      if c = '+' || c = '-' then c :: (List.replicate (w - (rest.length + 1)) '0' ++ rest)
      else List.replicate (w - s.length) '0' ++ s
    | [] => List.replicate w '0'

/-- Python `str.rstrip(chars)` for a character predicate. -/
def rstripChars (p : Char → Bool) (s : Str) : Str := (s.reverse.dropWhile p).reverse

/-- Python `str.lstrip(chars)` for a character predicate. -/
def lstripChars (p : Char → Bool) (s : Str) : Str := s.dropWhile p

/-- Python `str.strip()` (whitespace on both sides). -/
def pyStrip (s : Str) : Str :=
  rstripChars Char.isWhitespace (s.dropWhile Char.isWhitespace)

/-- Python `str.ljust(width, fill)`. -/
def ljustWith (w : Nat) (fill : Char) (s : Str) : Str :=
  s ++ List.replicate (w - s.length) fill

/-- Numeric value of an ASCII digit string (most significant first). -/
def natOfDigits (s : Str) : Nat := s.foldl (fun a c => a * 10 + (c.toNat - 48)) 0

/-- Decimal representation of a natural number. -/
def natRepr (n : Nat) : Str := (toString n).data

/-- Python `str(int)`. -/
def intRepr (n : Int) : Str := (toString n).data

/-- Python `int(str)` restricted to an optional sign followed by digits
(`int()` on other shapes raises `ValueError`, modelled as `none`). -/
def pyInt (s : Str) : Option Int :=
  match s with
  | '+' :: rest => if pyIsDigit rest then some (natOfDigits rest) else none
  | '-' :: rest => if pyIsDigit rest then some (-(natOfDigits rest : Int)) else none
  | _ => if pyIsDigit s then some (natOfDigits s) else none

/-- Unsigned decimal literal (`"12"`, `"12.5"`, `"12."`, `".5"`) as an exact
rational; `none` where Python `float()` would raise `ValueError`.
Exponent notation is not modelled (it does not occur in EURING records). -/
def parseUnsignedDecimal (s : Str) : Option ℚ :=
  let intPart := s.takeWhile Char.isDigit
  let rest := s.dropWhile Char.isDigit
  match rest with
  | [] => if intPart.isEmpty then none else some (natOfDigits intPart : ℚ)
  | '.' :: frac =>
    if frac.all Char.isDigit && !(intPart.isEmpty && frac.isEmpty) then
      some ((natOfDigits intPart : ℚ) + (natOfDigits frac : ℚ) / (10 : ℚ) ^ frac.length)
    else none
  | _ => none

/-- Python `float(str)`: optional sign and a decimal literal, modelled as an
exact rational. -/
def pyFloat (s : Str) : Option ℚ :=
  match s with
  | '+' :: rest => parseUnsignedDecimal rest
  | '-' :: rest => (parseUnsignedDecimal rest).map (- ·)
  | _ => parseUnsignedDecimal s

/-- Python `int(x)` on a float: truncation toward zero. -/
def ratTrunc (q : ℚ) : Int := if 0 ≤ q then ⌊q⌋ else ⌈q⌉

/-- Python `round(x)` on a float: round half to even. -/
def pyRound (q : ℚ) : Int :=
  let f := ⌊q⌋
  let r := q - (f : ℚ)
  if r < 1 / 2 then f
  else if 1 / 2 < r then f + 1
  else if Even f then f else f + 1

/-- Smallest exponent `k ≤ bound` with `den ∣ 10 ^ k`, else `bound`. -/
def decimalExponent (den : Nat) (bound : Nat) : Nat :=
  match (List.range (bound + 1)).find? (fun k => 10 ^ k % den = 0) with
  | some k => k
  | none => bound

/-- Python `str(float)` for floats that are exact decimals: the shortest
decimal expansion, always keeping at least one digit after the point
(`str(10.0) = "10.0"`). Floats with non-terminating decimal expansion are
approximated at 17 digits (such values do not arise in the claims). -/
def ratDecimalRepr (q : ℚ) : Str :=
  let sign : Str := if q < 0 then ['-'] else []
  let k := decimalExponent q.den 17
  let scaled := (q.num.natAbs * 10 ^ k) / q.den
  let ip := scaled / 10 ^ k
  let fp := scaled % 10 ^ k
  let fracDigits := zfill k (natRepr fp)
  let fracTrimmed := rstripChars (· = '0') fracDigits
  let frac := if fracTrimmed.isEmpty then ['0'] else fracTrimmed
  sign ++ natRepr ip ++ ['.'] ++ frac

/-! ## Coordinate codec (`coordinates.py`) -/

/-- Components of a EURING DMS coordinate. -/
structure DmsParts where
  quadrant : Char
  degrees : Int
  minutes : Int
  seconds : Int
deriving DecidableEq, Repr

/-- `coordinates._decimal_to_euring_coordinate_components`: truncate degrees,
truncate minutes, round seconds half-to-even, then carry seconds→minutes and
minutes→degrees (away from zero). The quadrant sign is taken from the
truncated degrees before any carry. -/
def decimalToEuringCoordinateComponents (value : ℚ) : DmsParts :=
  let degrees : Int := ratTrunc value
  let submin : ℚ := |(value - (degrees : ℚ)) * 60|
  let minutes : Int := ratTrunc submin
  let seconds0 : ℚ := |(submin - (minutes : ℚ)) * 60|
  let quadrant : Char := if degrees < 0 then '-' else '+'
  let seconds : Int := pyRound seconds0
  let p1 : Int × Int := if seconds = 60 then (0, minutes + 1) else (seconds, minutes)
  let p2 : Int × Int :=
    if p1.2 = 60 then (0, if 0 ≤ degrees then degrees + 1 else degrees - 1)
    else (p1.2, degrees)
  ⟨quadrant, p2.2, p2.1, p1.1⟩

/-- `coordinates._decimal_to_euring_coordinate`: quadrant, zero-padded degree
magnitude, minutes, seconds. -/
def decimalToEuringCoordinate (value : ℚ) (degreesPos : Nat) : Str :=
  let p := decimalToEuringCoordinateComponents value
  [p.quadrant] ++ zfill degreesPos (intRepr |p.degrees|)
    ++ zfill 2 (intRepr p.minutes) ++ zfill 2 (intRepr p.seconds)

/-- `coordinates._lat_to_euring_coordinate` (2 degree digits). -/
def latToEuringCoordinate (value : ℚ) : Str := decimalToEuringCoordinate value 2

/-- `coordinates._lng_to_euring_coordinate` (3 degree digits). -/
def lngToEuringCoordinate (value : ℚ) : Str := decimalToEuringCoordinate value 3

/-- `coordinates.lat_lng_to_euring_coordinates`. -/
def latLngToEuringCoordinates (lat lng : ℚ) : Str :=
  latToEuringCoordinate lat ++ lngToEuringCoordinate lng

/-- `coordinates._euring_coordinate_to_decimal`: split off the trailing
seconds and minutes pairs, parse the rest as signed degrees, and combine. -/
def euringCoordinateToDecimal (value : Str) : Except Str ℚ :=
  let n := value.length
  let seconds := value.drop (n - 2)
  let minutes := (value.drop (n - 4)).take ((n - 2) - (n - 4))
  let degrees := value.take (n - 4)
  match pyFloat degrees, pyFloat minutes, pyFloat seconds with
  | some d, some m, some s =>
    let r : ℚ := |d| + m / 60 + s / 3600
    .ok (if d < 0 then -r else r)
  | _, _, _ => .error ("Could not parse coordinate \x7bvalue\x7d to decimal.".data)

/-- `coordinates.euring_coordinates_to_lat_lng`: first 7 characters are the
latitude component, the rest the longitude component. -/
def euringCoordinatesToLatLng (value : Str) : Except Str (ℚ × ℚ) :=
  match euringCoordinateToDecimal (value.take 7), euringCoordinateToDecimal (value.drop 7) with
  | .ok lat, .ok lng => .ok (lat, lng)
  | .error e, _ => .error e
  | _, .error e => .error e

/-- `coordinates._validate_euring_coordinate_component` as a predicate: exact
length, explicit sign, all-digit degree/minute/second parts within range. -/
def validEuringCoordinateComponent (value : Str) (degreesDigits maxDegrees : Nat) : Bool :=
  let expected := 1 + degreesDigits + 2 + 2
  let degrees := (value.drop 1).take degreesDigits
  let minutes := (value.drop (1 + degreesDigits)).take 2
  let seconds := value.drop (1 + degreesDigits + 2)
  decide (value.length = expected) &&
  (value.headD ' ' = '+' || value.headD ' ' = '-') &&
  pyIsDigit degrees && pyIsDigit minutes && pyIsDigit seconds &&
  decide (natOfDigits degrees ≤ maxDegrees) &&
  decide (natOfDigits minutes ≤ 59) && decide (natOfDigits seconds ≤ 59)

/-- Error message shared by the coordinate validators. -/
def coordError : Str := "is not a valid set of coordinates.".data

/-- `coordinates._validate_euring_coordinates`: a combined string must be 15
characters, a valid 7-character latitude and a valid 8-character longitude. -/
def validateEuringCoordinates (value : Option Str) : Except Str Unit :=
  match value with
  | none => .error coordError
  | some v =>
    if v.length ≠ 15 then .error coordError
    else if !validEuringCoordinateComponent (v.take 7) 2 90 then .error coordError
    else if !validEuringCoordinateComponent (v.drop 7) 3 180 then .error coordError
    else .ok ()

/-- The codec-level combined decode (`_validate_euring_coordinates` followed
by `euring_coordinates_to_lat_lng`, as invoked from
`codes.parse_geographical_coordinates` past its placeholder check). -/
def combinedToLatLng (value : Str) : Except Str (ℚ × ℚ) :=
  match validateEuringCoordinates (some value) with
  | .error e => .error e
  | .ok _ => euringCoordinatesToLatLng value

/-- The 15-dot placeholder for an absent geographical coordinate. -/
def geoDots : Str := List.replicate 15 '.'

/-- `codes.parse_geographical_coordinates`: `None` is a constraint error, the
15-dot placeholder parses to an absent value, anything else is validated and
decoded. -/
def parseGeographicalCoordinates (value : Option Str) : Except Str (Option (ℚ × ℚ)) :=
  match value with
  | none => .error coordError
  | some v =>
    if v = geoDots then .ok none
    else
      match validateEuringCoordinates (some v) with
      | .error e => .error e
      | .ok _ =>
        match euringCoordinatesToLatLng v with
        | .ok p => .ok (some p)
        | .error _ => .error coordError

/-! ## Formats (`formats.py`) -/

/-- The three EURING wire formats. -/
inductive EuringFormat where
  | euring2000
  | euring2000plus
  | euring2020
deriving DecidableEq, Repr

/-! ## Python values -/

/-- The Python values that flow through the codec: `None`, strings, ints,
floats (as exact rationals), `datetime.date`, and the `{lat, lng}` coordinate
dict produced by `parse_geographical_coordinates`. -/
inductive PyVal where
  | pnone
  | pstr (s : Str)
  | pint (n : Int)
  | pfloat (q : ℚ)
  | pdate (day month year : Nat)
  | pcoords (lat lng : ℚ)
deriving DecidableEq, Repr

/-- `utils.is_empty`: Python `value in (None, "")`. -/
def PyVal.isEmpty : PyVal → Bool
  | .pnone => true
  | .pstr s => s.isEmpty
  | _ => false

/-- Python `f"{value}"` for the values above. The coordinate-dict rendering is
never consumed (such values only reach dedicated branches). -/
def PyVal.pyStr : PyVal → Str
  | .pnone => "None".data
  | .pstr s => s
  | .pint n => intRepr n
  | .pfloat q => ratDecimalRepr q
  | .pdate d m y => zfill 4 (natRepr y) ++ ['-'] ++ zfill 2 (natRepr m) ++ ['-'] ++ zfill 2 (natRepr d)
  | .pcoords _ _ => "[coordinate pair]".data

/-! ## Field types (`types.py` is absent from the sources).

Modelled from the spec: `FieldType` — "Alphabetic accepts letters only;
Alphanumeric accepts letters and digits; Integer accepts digits or an
all-hyphen placeholder meaning value unknown; Numeric/NumericSigned accept
decimal literals (optional sign for Signed); Text accepts any printable text
up to its length bound." -/

/-- The EURING field type enumeration. -/
inductive EuringType where
  | alphabetic
  | alphanumeric
  | integer
  | numeric
  | numericSigned
  | text
deriving DecidableEq, Repr

/-- Modelled from the spec: `types.is_valid_euring_type` (the `types.py`
module is absent from the sources); see the `FieldType` description in §3. -/
def isValidEuringType (s : Str) : EuringType → Bool
  | .alphabetic => pyIsAlpha s
  | .alphanumeric => !s.isEmpty && s.all (fun c => c.isAlpha || c.isDigit)
  | .integer => pyIsDigit s || isAllHyphens s
  | .numeric => (parseUnsignedDecimal s).isSome
  | .numericSigned => (pyFloat s).isSome
  | .text => true

/-- The `value_type` hook of `field_schema.EuringField`. -/
inductive ValueType where
  | vtNone
  | codeStr
  | vtInt
  | vtFloat
  | vtDate
deriving DecidableEq, Repr

/-- The parser hooks from `codes.py` that the field table wires in. -/
inductive ParserKind where
  | date
  | placeCode
  | geoCoords
  | direction
  | oldGreaterCoverts
  | latitude
  | longitude
deriving DecidableEq, Repr

/-- A field definition (`field_schema.EuringField` and the dict entries of
the canonical table). `record.py` reads the type under the key `type_name`
and `field_schema.coerce_field` under `euring_type`; the table supplies the
same type to both, modelled by the single `etype`. -/
structure FieldDef where
  key : Str
  name : Str
  etype : EuringType
  valueType : ValueType := .vtNone
  required : Bool := true
  length : Option Nat := none
  variableLength : Bool := false
  emptyValue : Option Str := none
  parserKind : Option ParserKind := none
deriving DecidableEq, Repr

/-! ## Parser hooks (`codes.py`) -/

/-- `codes.parse_date`: reject an all-hyphen placeholder, else pass through. -/
def parseDateHook (v : Str) : Except Str (Option PyVal) :=
  if isAllHyphens v then
    .error ("Date cannot be all dashes; provide an estimated real date instead.".data)
  else .ok (some (.pstr v))

/-- The pattern `^[A-Z]{2}([A-Z]{2}|[0-9]{2}|--)$` of `codes.parse_place_code`. -/
def placeCodePatternOk (s : Str) : Bool :=
  match s with
  | [a, b, c, d] =>
    a.isUpper && b.isUpper &&
      ((c.isUpper && d.isUpper) || (c.isDigit && d.isDigit) || (c = '-' && d = '-'))
  | _ => false

/-- `codes.parse_place_code`. -/
def parsePlaceCodeHook (v : Str) : Except Str (Option PyVal) :=
  if placeCodePatternOk v then .ok (some (.pstr v))
  else .error ("is not a valid place code format.".data)

/-- `codes.parse_direction`: hyphen placeholder parses to `None`, a leading
minus is rejected, otherwise an integer in `0..359`. -/
def parseDirectionHook (v : Str) : Except Str (Option PyVal) :=
  if isAllHyphens v then .ok none
  else if v.headD ' ' = '-' then .error ("is not a valid direction.".data)
  else
    match pyInt v with
    | none => .error ("is not a valid direction.".data)
    | some n =>
      if n < 0 || 359 < n then .error ("Direction must be between 0 and 359 degrees.".data)
      else .ok (some (.pint n))

/-- `codes.parse_old_greater_coverts`: `0`-`9` or `A`. -/
def parseOldGreaterCovertsHook (v : Str) : Except Str (Option PyVal) :=
  match v with
  | [c] =>
    if c.isDigit || c = 'A' then .ok (some (.pstr v))
    else .error ("is not a valid Old Greater Coverts code.".data)
  | _ => .error ("is not a valid Old Greater Coverts code.".data)

/-- `codes._parse_decimal_coordinate`: parse as float, bound the magnitude,
and allow at most four decimal places. -/
def parseDecimalCoordinateHook (v : Str) (maxAbs : Nat) : Except Str (Option PyVal) :=
  match pyFloat v with
  | none => .error ("is not a valid decimal coordinate.".data)
  | some q =>
    if (maxAbs : ℚ) < |q| then
      .error ("must be between -maxAbs and maxAbs.".data)
    else if '.' ∈ v && 4 < ((v.dropWhile (· ≠ '.')).drop 1).length then
      .error ("must have at most 4 decimal places.".data)
    else .ok (some (.pfloat q))

/-- Dispatch a parser hook (`codes.py`). -/
def runParserHook : ParserKind → Str → Except Str (Option PyVal)
  | .date, v => parseDateHook v
  | .placeCode, v => parsePlaceCodeHook v
  | .geoCoords, v =>
    match parseGeographicalCoordinates (some v) with
    | .error e => .error e
    | .ok none => .ok none
    | .ok (some p) => .ok (some (.pcoords p.1 p.2))
  | .direction, v => parseDirectionHook v
  | .oldGreaterCoverts, v => parseOldGreaterCovertsHook v
  | .latitude, v => parseDecimalCoordinateHook v 90
  | .longitude, v => parseDecimalCoordinateHook v 180

/-! ## Field schema (`field_schema.py`) -/

/-- The exact message of a required-but-empty failure (matched verbatim by
`record.EuringRecord._has_non_optional_errors`). -/
def requiredEmptyMsg : Str := "Required field, empty value \"\" is not permitted.".data

/-- Build the message of a length failure. -/
def msgBadLength (raw : Str) (expected : Nat) : Str :=
  "Value is length ".data ++ natRepr raw.length ++ " instead of ".data ++ natRepr expected ++ ".".data

/-- Build the message of an over-length failure for variable-length fields. -/
def msgTooLong (raw : Str) (bound : Nat) : Str :=
  "Value is length ".data ++ natRepr raw.length ++ ", should be at most ".data ++ natRepr bound ++ ".".data

/-- Build the message of a type failure. -/
def msgBadType (raw : Str) : Str := "Value ".data ++ raw ++ " is not valid for its type.".data

/-- `EuringField._validate_length`. -/
def fieldValidateLength (f : FieldDef) (raw : Str) (ignoreVariableLength : Bool) : Except Str Unit :=
  match f.length with
  | none => .ok ()
  | some L =>
    if f.variableLength && !ignoreVariableLength then
      if L < raw.length then .error (msgTooLong raw L) else .ok ()
    else if raw.length ≠ L then .error (msgBadLength raw L)
    else .ok ()

/-- `EuringField._validate_raw`: empty is `None` for optional fields and an
error for required ones; otherwise length- and type-check. -/
def fieldValidateRaw (f : FieldDef) (raw : Str) : Except Str (Option Str) :=
  if raw.isEmpty then
    if !f.required then .ok none else .error requiredEmptyMsg
  else
    match fieldValidateLength f raw false with
    | .error e => .error e
    | .ok _ =>
      if !isValidEuringType raw f.etype then .error (msgBadType raw)
      else .ok (some raw)

/-- `EuringField._coerce_type`: coercion driven by the EURING type. -/
def coerceEuringType (t : EuringType) (raw : Str) : Except Str (Option PyVal) :=
  match t with
  | .integer =>
    if isAllHyphens raw then .ok none
    else
      match pyInt raw with
      | some n => .ok (some (.pint n))
      | none => .error ("invalid literal for int().".data)
  | .numeric =>
    match pyFloat raw with
    | some q => .ok (some (.pfloat q))
    | none => .error ("could not convert string to float.".data)
  | .numericSigned =>
    match pyFloat raw with
    | some q => .ok (some (.pfloat q))
    | none => .error ("could not convert string to float.".data)
  | _ => .ok (some (.pstr raw))

/-- `datetime.date` validity (proleptic Gregorian calendar). -/
def isLeapYear (y : Nat) : Bool := (y % 4 = 0 && y % 100 ≠ 0) || y % 400 = 0

/-- Days in a month of the proleptic Gregorian calendar. -/
def daysInMonth (y m : Nat) : Nat :=
  if m = 2 then (if isLeapYear y then 29 else 28)
  else if m = 4 || m = 6 || m = 9 || m = 11 then 30
  else 31

/-- `datetime.date(year, month, day)` accepts exactly these triples. -/
def validDate (y m d : Nat) : Bool :=
  1 ≤ y && y ≤ 9999 && 1 ≤ m && m ≤ 12 && 1 ≤ d && d ≤ daysInMonth y m

/-- `EuringField._coerce_value_type`: the configured `value_type` wins over
the EURING-type coercion. -/
def coerceValueType (f : FieldDef) (raw : Str) : Except Str (Option PyVal) :=
  match f.valueType with
  | .vtNone => coerceEuringType f.etype raw
  | .codeStr => .ok (some (.pstr raw))
  | .vtInt =>
    if isAllHyphens raw then .ok none
    else
      match pyInt raw with
      | some n => .ok (some (.pint n))
      | none => .error ("invalid literal for int().".data)
  | .vtFloat =>
    match pyFloat raw with
    | some q => .ok (some (.pfloat q))
    | none => .error ("could not convert string to float.".data)
  | .vtDate =>
    if raw.length ≠ 8 || !pyIsDigit raw then
      .error ("is not a valid ddmmyyyy date.".data)
    else
      let d := natOfDigits (raw.take 2)
      let m := natOfDigits ((raw.drop 2).take 2)
      let y := natOfDigits (raw.drop 4)
      if validDate y m d then .ok (some (.pdate d m y))
      else .error ("is not a valid ddmmyyyy date.".data)

/-- `EuringField.parse` / `EuringFormattedField.parse`: validate the raw
text, then run the parser hook if any; a hook that passes a string through
still receives the `value_type` coercion. -/
def fieldParse (f : FieldDef) (raw : Str) : Except Str (Option PyVal) :=
  match fieldValidateRaw f raw with
  | .error e => .error e
  | .ok none => .ok none
  | .ok (some v) =>
    match f.parserKind with
    | none => coerceValueType f v
    | some p =>
      match runParserHook p v with
      | .error e => .error e
      | .ok parsed =>
        match parsed with
        | some (.pstr s) =>
          if f.valueType ≠ .vtNone then coerceValueType f s else .ok parsed
        | _ => .ok parsed

/-- `date.strftime("%d%m%Y")`. -/
def dateToDdmmyyyy (d m y : Nat) : Str :=
  zfill 2 (natRepr d) ++ zfill 2 (natRepr m) ++ zfill 4 (natRepr y)

/-- The generic string path of `EuringField.encode`. -/
def fieldEncodeGeneric (f : FieldDef) (value : PyVal) : Except Str Str :=
  let s0 := value.pyStr
  let s1 :=
    if f.etype = .numeric || f.etype = .numericSigned then
      rstripChars (· = '.') (rstripChars (· = '0') s0)
    else s0
  let s2 :=
    if (f.etype = .integer || f.etype = .numeric || f.etype = .numericSigned)
        && f.length.getD 0 ≠ 0 && !f.variableLength then
      zfill (f.length.getD 0) s1
    else s1
  match fieldValidateLength f s2 false with
  | .error e => .error e
  | .ok _ =>
    if !isValidEuringType s2 f.etype then .error (msgBadType s2) else .ok s2

/-- `EuringField.encode`: encode a Python value to raw text, with the
dedicated geographical-coordinates and date branches, trailing-zero
stripping for numeric types, and zero-padding for fixed-width numeric
fields, then re-validating length and type. -/
def fieldEncode (f : FieldDef) (value : PyVal) : Except Str Str :=
  if value.isEmpty then
    if f.required then .error requiredEmptyMsg else .ok []
  else if f.key = "geographical_coordinates".data then
    match value with
    | .pcoords lat lng => .ok (latLngToEuringCoordinates lat lng)
    | _ => fieldEncodeGeneric f value
  else if f.key = "date".data then
    match value with
    | .pdate d m y => .ok (dateToDdmmyyyy d m y)
    | _ => fieldEncodeGeneric f value
  else fieldEncodeGeneric f value

/-- Hyphen fill for fixed-width output or required integer fields in the
empty-value branch of `EuringField.encode_for_format`. -/
def encodeForFormatEmptyNoPlaceholder (f : FieldDef) (format : EuringFormat) : Str :=
  if f.length.getD 0 ≠ 0 && format = .euring2000 then
    List.replicate (f.length.getD 0) '-'
  else if f.length.getD 0 ≠ 0 && f.required && f.etype = .integer then
    List.replicate (f.length.getD 0) '-'
  else []

/-- The empty-value branch of `EuringField.encode_for_format`. -/
def encodeForFormatEmpty (f : FieldDef) (format : EuringFormat) : Str :=
  match f.emptyValue with
  | some ev => if !ev.isEmpty then ev else encodeForFormatEmptyNoPlaceholder f format
  | none => encodeForFormatEmptyNoPlaceholder f format

/-- `EuringField.encode_for_format`: format-aware encoding — empty values
take the placeholder or hyphen fill, an all-hyphen integer string encodes as
empty, numeric types are stripped and zero-padded, and variable-length
fields drop leading zeros outside the fixed-width format. -/
def encodeForFormat (f : FieldDef) (value : PyVal) (format : EuringFormat) : Except Str Str :=
  if value.isEmpty then .ok (encodeForFormatEmpty f format)
  else if f.key = "geographical_coordinates".data
      && (match value with | .pcoords _ _ => true | _ => false) then
    match value with
    | .pcoords lat lng => .ok (latLngToEuringCoordinates lat lng)
    | _ => .error ("unreachable".data)
  else if f.key = "date".data && (match value with | .pdate _ _ _ => true | _ => false) then
    match value with
    | .pdate d m y =>
      let s := dateToDdmmyyyy d m y
      match fieldValidateLength f s false with
      | .error e => .error e
      | .ok _ => if !isValidEuringType s f.etype then .error (msgBadType s) else .ok s
    | _ => .error ("unreachable".data)
  else if f.etype = .integer
      && (match value with | .pstr s => isAllHyphens s | _ => false) then
    .ok (encodeForFormatEmpty f format)
  else
    let s0 := value.pyStr
    let s1 :=
      if f.etype = .numeric || f.etype = .numericSigned then
        rstripChars (· = '.') (rstripChars (· = '0') s0)
      else s0
    let ignoreVariableLength := format = .euring2000
    let s2 :=
      if (f.etype = .integer || f.etype = .numeric || f.etype = .numericSigned)
          && f.length.getD 0 ≠ 0 then
        zfill (f.length.getD 0) s1
      else s1
    let s3 :=
      if f.variableLength && !ignoreVariableLength then
        let stripped := lstripChars (· = '0') s2
        if stripped.isEmpty then ['0'] else stripped
      else s2
    match fieldValidateLength f s3 ignoreVariableLength with
    | .error e => .error e
    | .ok _ =>
      if !isValidEuringType s3 f.etype then .error (msgBadType s3) else .ok s3

/-! ## The canonical field table.

Modelled from the spec: the canonical table module (`fields.py`) is absent
from the sources; only its callers and tests remain. The spec fixes the
ordered 64-entry list, that the EURING2000 list is its first 33 entries with
lengths summing to 94 characters and the EURING2000+ list its first 60, the
EURING2020-only tail (`latitude`, `longitude`, `current_place_code`,
`more_other_marks`), the per-field parse/encode hooks of §4.2, and the field
types of §3. Keys, order and fixed widths follow the published EURING layout
used throughout the repository tests; description lookups are external
collaborators (§6) and are not part of the core table. -/

/-- The canonical ordered EURING2020 field table (64 entries). -/
def euringFields : List FieldDef := [
  { key := "ringing_scheme".data, name := "Ringing Scheme".data,
    etype := .alphabetic, length := some 3 },
  { key := "primary_identification_method".data, name := "Primary Identification Method".data,
    etype := .alphanumeric, length := some 2 },
  { key := "identification_number".data, name := "Identification Number".data,
    etype := .text, length := some 10 },
  { key := "verification_of_the_metal_ring".data, name := "Verification of the Metal Ring".data,
    etype := .integer, length := some 1 },
  { key := "metal_ring_information".data, name := "Metal Ring Information".data,
    etype := .integer, length := some 1 },
  { key := "other_marks_information".data, name := "Other Marks Information".data,
    etype := .alphanumeric, length := some 2 },
  { key := "species_mentioned".data, name := "Species Mentioned".data,
    etype := .integer, length := some 5 },
  { key := "species_concluded".data, name := "Species Concluded".data,
    etype := .integer, length := some 5 },
  { key := "manipulated".data, name := "Manipulated".data,
    etype := .alphabetic, length := some 1 },
  { key := "moved_before_recovery".data, name := "Moved Before Recovery".data,
    etype := .alphanumeric, length := some 1 },
  { key := "catching_method".data, name := "Catching Method".data,
    etype := .text, length := some 1 },
  { key := "catching_lures".data, name := "Catching Lures".data,
    etype := .text, length := some 1 },
  { key := "sex_mentioned".data, name := "Sex Mentioned".data,
    etype := .alphabetic, length := some 1 },
  { key := "sex_concluded".data, name := "Sex Concluded".data,
    etype := .alphabetic, length := some 1 },
  { key := "age_mentioned".data, name := "Age Mentioned".data,
    etype := .alphanumeric, length := some 1 },
  { key := "age_concluded".data, name := "Age Concluded".data,
    etype := .alphanumeric, length := some 1 },
  { key := "status".data, name := "Status".data,
    etype := .alphanumeric, length := some 1 },
  { key := "brood_size".data, name := "Brood Size".data,
    etype := .integer, length := some 2 },
  { key := "pullus_age".data, name := "Pullus Age".data,
    etype := .integer, length := some 2 },
  { key := "accuracy_of_pullus_age".data, name := "Accuracy of Pullus Age".data,
    etype := .integer, length := some 1 },
  { key := "date".data, name := "Date".data,
    etype := .integer, valueType := .vtDate, length := some 8, parserKind := some .date },
  { key := "accuracy_of_date".data, name := "Accuracy of Date".data,
    etype := .integer, length := some 1 },
  { key := "time".data, name := "Time".data,
    etype := .integer, length := some 4 },
  { key := "place_code".data, name := "Place Code".data,
    etype := .text, length := some 4, parserKind := some .placeCode },
  { key := "geographical_coordinates".data, name := "Geographical Co-ordinates".data,
    etype := .text, length := some 15, parserKind := some .geoCoords },
  { key := "accuracy_of_coordinates".data, name := "Accuracy of Co-ordinates".data,
    etype := .alphanumeric, length := some 1 },
  { key := "condition".data, name := "Condition".data,
    etype := .integer, length := some 1 },
  { key := "circumstances".data, name := "Circumstances".data,
    etype := .integer, length := some 2 },
  { key := "circumstances_presumed".data, name := "Circumstances Presumed".data,
    etype := .integer, length := some 1 },
  { key := "euring_code_identifier".data, name := "EURING Code Identifier".data,
    etype := .integer, length := some 1 },
  { key := "distance".data, name := "Distance".data,
    etype := .integer, length := some 5, variableLength := true },
  { key := "direction".data, name := "Direction".data,
    etype := .integer, length := some 3, parserKind := some .direction },
  { key := "elapsed_time".data, name := "Elapsed Time".data,
    etype := .integer, length := some 5, variableLength := true },
  { key := "wing_length".data, name := "Wing Length".data,
    etype := .numeric, required := false },
  { key := "third_primary".data, name := "Third Primary".data,
    etype := .numeric, required := false },
  { key := "state_of_wing_point".data, name := "State of Wing Point".data,
    etype := .alphabetic, required := false, length := some 1 },
  { key := "mass".data, name := "Mass".data,
    etype := .numeric, required := false },
  { key := "moult".data, name := "Moult".data,
    etype := .alphabetic, required := false, length := some 1 },
  { key := "plumage_code".data, name := "Plumage Code".data,
    etype := .alphanumeric, required := false, length := some 1 },
  { key := "hind_claw".data, name := "Hind Claw".data,
    etype := .numeric, required := false },
  { key := "bill_length".data, name := "Bill Length".data,
    etype := .numeric, required := false },
  { key := "bill_method".data, name := "Bill Method".data,
    etype := .alphabetic, required := false, length := some 1 },
  { key := "total_head_length".data, name := "Total Head Length".data,
    etype := .numeric, required := false },
  { key := "tarsus".data, name := "Tarsus".data,
    etype := .numeric, required := false },
  { key := "tarsus_method".data, name := "Tarsus Method".data,
    etype := .alphabetic, required := false, length := some 1 },
  { key := "tail_length".data, name := "Tail Length".data,
    etype := .numeric, required := false },
  { key := "tail_difference".data, name := "Tail Difference".data,
    etype := .numericSigned, required := false },
  { key := "fat_score".data, name := "Fat Score".data,
    etype := .integer, required := false, length := some 1 },
  { key := "fat_score_method".data, name := "Fat Score Method".data,
    etype := .alphabetic, required := false, length := some 1 },
  { key := "pectoral_muscle".data, name := "Pectoral Muscle".data,
    etype := .integer, required := false, length := some 1 },
  { key := "brood_patch".data, name := "Brood Patch".data,
    etype := .alphanumeric, required := false, length := some 1 },
  { key := "primary_score".data, name := "Primary Score".data,
    etype := .integer, required := false, length := some 2 },
  { key := "primary_moult".data, name := "Primary Moult".data,
    etype := .alphanumeric, required := false, length := some 5 },
  { key := "old_greater_coverts".data, name := "Old Greater Coverts".data,
    etype := .alphanumeric, required := false, length := some 1,
    parserKind := some .oldGreaterCoverts },
  { key := "alula".data, name := "Alula".data,
    etype := .alphanumeric, required := false, length := some 1 },
  { key := "carpal_covert".data, name := "Carpal Covert".data,
    etype := .alphanumeric, required := false, length := some 1 },
  { key := "sexing_method".data, name := "Sexing Method".data,
    etype := .alphabetic, required := false, length := some 1 },
  { key := "place_name".data, name := "Place Name".data,
    etype := .text, required := false },
  { key := "remarks".data, name := "Remarks".data,
    etype := .text, required := false },
  { key := "reference".data, name := "Reference".data,
    etype := .text, required := false },
  { key := "latitude".data, name := "Latitude".data,
    etype := .numericSigned, required := false, parserKind := some .latitude },
  { key := "longitude".data, name := "Longitude".data,
    etype := .numericSigned, required := false, parserKind := some .longitude },
  { key := "current_place_code".data, name := "Current Place Code".data,
    etype := .text, required := false, length := some 4 },
  { key := "more_other_marks".data, name := "More Other Marks".data,
    etype := .text, required := false }]

/-- `fields.EURING2000_FIELDS`: the first 33 canonical entries. -/
def euring2000Fields : List FieldDef := euringFields.take 33

/-- `fields.EURING2000PLUS_FIELDS`: the first 60 canonical entries. -/
def euring2000plusFields : List FieldDef := euringFields.take 60

/-- `fields.EURING2020_FIELDS`: all 64 canonical entries. -/
def euring2020Fields : List FieldDef := euringFields

/-- `record._fields_for_format`. -/
def fieldsForFormat : EuringFormat → List FieldDef
  | .euring2000 => euring2000Fields
  | .euring2000plus => euring2000plusFields
  | .euring2020 => euring2020Fields

/-- `fields.EURING2020_ONLY_KEYS` (modelled from the spec: the four
EURING2020-only fields). -/
def euring2020OnlyKeys : List Str := (euringFields.drop 60).map (·.key)

/-- `fields.NON_EURING2000_KEYS` (modelled from the spec: every canonical
key beyond the 33-entry fixed-width list). -/
def nonEuring2000Keys : List Str := (euringFields.drop 33).map (·.key)

/-- Association-list lookup keyed by field key (Python `dict.get`). -/
def alookup {β : Type} : List (Str × β) → Str → Option β
  | [], _ => none
  | (k2, v) :: rest, k => if k2 = k then some v else alookup rest k

/-- Python `values_by_key.get(key, "")`. -/
def valuesGet (vals : List (Str × Str)) (k : Str) : Str :=
  match alookup vals k with
  | some v => v
  | none => []

/-- Python dict assignment `vals[k] = v` (update in place or append). -/
def aset (vals : List (Str × Str)) (k : Str) (v : Str) : List (Str × Str) :=
  match vals with
  | [] => [(k, v)]
  | (k2, w) :: rest => if k2 = k then (k2, v) :: rest else (k2, w) :: aset rest k v

/-! ## Record-level rules (`rules.py`) -/

/-- A record-level rule error (`rules.record_rule_errors` entries). -/
structure RuleError where
  key : Str
  message : Str
  value : Str
deriving DecidableEq, Repr

/-- `rules.accuracy_of_coordinates_is_alpha`. -/
def accuracyOfCoordinatesIsAlpha (vals : List (Str × Str)) : Bool :=
  pyIsAlpha (valuesGet vals ("accuracy_of_coordinates".data))

/-- Build one rule error with the offending value attached. -/
def mkRuleError (vals : List (Str × Str)) (k msg : Str) : RuleError :=
  ⟨k, msg, valuesGet vals k⟩

/-- `rules.record_rule_errors`: EURING2020 couples `latitude`/`longitude`
with the dotted `geographical_coordinates` placeholder; other formats
reject alphabetic accuracy codes and format-foreign fields. -/
def recordRuleErrors (format : EuringFormat) (vals : List (Str × Str)) : List RuleError :=
  if format = .euring2020 then
    let geo := valuesGet vals ("geographical_coordinates".data)
    let lat := valuesGet vals ("latitude".data)
    let lng := valuesGet vals ("longitude".data)
    (if (!lat.isEmpty || !lng.isEmpty) && !geo.isEmpty && geo ≠ geoDots then
      [mkRuleError vals ("geographical_coordinates".data)
        ("When Latitude/Longitude are provided, Geographical Co-ordinates must be 15 dots.".data)]
    else []) ++
    (if !lat.isEmpty && lng.isEmpty then
      [mkRuleError vals ("longitude".data)
        ("Longitude is required when Latitude is provided.".data)]
    else []) ++
    (if !lng.isEmpty && lat.isEmpty then
      [mkRuleError vals ("latitude".data)
        ("Latitude is required when Longitude is provided.".data)]
    else [])
  else
    (if accuracyOfCoordinatesIsAlpha vals then
      [mkRuleError vals ("accuracy_of_coordinates".data)
        ("Alphabetic accuracy codes are only valid in EURING2020.".data)]
    else []) ++
    (if format = .euring2000 then
      nonEuring2000Keys.filterMap (fun k =>
        if (valuesGet vals k).isEmpty then none
        else some (mkRuleError vals k
          ("Fields beyond the EURING2000 fixed-width layout are not allowed.".data)))
    else []) ++
    (if format = .euring2000plus then
      euring2020OnlyKeys.filterMap (fun k =>
        if (valuesGet vals k).isEmpty then none
        else some (mkRuleError vals k
          ("EURING2020-only fields require EURING2020 format.".data)))
    else [])

/-- `rules.requires_euring2020`: alphabetic accuracy or any EURING2020-only
value present. -/
def requiresEuring2020 (vals : List (Str × Str)) : Bool :=
  accuracyOfCoordinatesIsAlpha vals ||
    euring2020OnlyKeys.any (fun k => !(valuesGet vals k).isEmpty)

/-! ## Splitting and format detection -/

/-- Python `str.split(sep)` (always at least one part; `"".split` is `[""]`). -/
def pySplitGo (sep : Char) : Str → Str → List Str
  | [], acc => [acc.reverse]
  | c :: rest, acc =>
    if c = sep then acc.reverse :: pySplitGo sep rest []
    else pySplitGo sep rest (c :: acc)

/-- Python `str.split(sep)`. -/
def pySplit (sep : Char) (s : Str) : List Str := pySplitGo sep s []

/-- Python `sep.join(parts)` for a single-character separator. -/
def joinSep (sep : Char) : List Str → Str
  | [] => []
  | [x] => x
  | x :: xs => x ++ sep :: joinSep sep xs

/-- Python `sep.join(parts)` for a multi-character separator. -/
def joinWith (sep : Str) : List Str → Str
  | [] => []
  | [x] => x
  | x :: xs => x ++ sep ++ joinWith sep xs

/-- Canonical index of a field key (`record._field_index`). -/
def fieldIndex (k : Str) : Option Nat := euringFields.findIdx? (fun f => f.key = k)

/-- Modelled from the spec: `fields.euring_value_from_list` (absent
`fields.py`) — the token at the key's canonical index, empty beyond the end of the list. -/
def euringValueFromList (values : List Str) (k : Str) : Str :=
  match fieldIndex k with
  | some i => (values.drop i).headD []
  | none => []

/-- `decode.euring_detect_format`: no pipe means EURING2000; more than 60
tokens means EURING2020; an alphabetic accuracy token means EURING2020;
otherwise EURING2000+. (`utils.is_alpha` is absent from the sources and
modelled from the spec as Python `str.isalpha` on a present token.) -/
def euringDetectFormat (record : Str) : EuringFormat :=
  if '|' ∈ record then
    let values := pySplit '|' record
    if euring2000plusFields.length < values.length then .euring2020
    else if pyIsAlpha (euringValueFromList values ("accuracy_of_coordinates".data)) then .euring2020
    else .euring2000plus
  else .euring2000

/-! ## Record serialization primitives (`record.py`) -/

/-- `formats.format_display_name`. -/
def formatDisplayName : EuringFormat → Str
  | .euring2000 => "EURING2000".data
  | .euring2000plus => "EURING2000+".data
  | .euring2020 => "EURING2020".data

/-- Hyphen fill of the empty branch of `record._serialize_field_value`. -/
def serializeEmptyNoPlaceholder (f : FieldDef) (format : EuringFormat) : Str :=
  if f.length.getD 0 ≠ 0 then
    if format = .euring2000 then List.replicate (f.length.getD 0) '-'
    else if f.required && f.etype = .integer then List.replicate (f.length.getD 0) '-'
    else []
  else []

/-- The empty-value branch of `record._serialize_field_value`: the field's
`empty_value` placeholder if any, else hyphen fill. -/
def serializeEmptyFieldValue (f : FieldDef) (format : EuringFormat) : Str :=
  match f.emptyValue with
  | some ev => if !ev.isEmpty then ev else serializeEmptyNoPlaceholder f format
  | none => serializeEmptyNoPlaceholder f format

/-- `record._serialize_field_value`: encode a typed field value into a raw
EURING string — empty values take placeholders or hyphen fill, coordinate
dicts take the DMS encoding, an all-hyphen integer string encodes like an
absent value, numeric values are stripped of trailing zeros, and integer or
numeric values are zero-padded per format. -/
def serializeFieldValue (f : FieldDef) (value : PyVal) (format : EuringFormat) : Except Str Str :=
  let L := f.length.getD 0
  let padInteger := f.etype = .integer && L ≠ 0 && (format = .euring2000 || !f.variableLength)
  let padNumeric := (f.etype = .numeric || f.etype = .numericSigned) && L ≠ 0
      && format = .euring2000
  let fd0 := if format = .euring2000 && f.variableLength then
      { f with variableLength := false } else f
  let fd := if padInteger || padNumeric then { fd0 with variableLength := true } else fd0
  if value.isEmpty then .ok (serializeEmptyFieldValue f format)
  else if f.key = "geographical_coordinates".data
      && (match value with | .pcoords _ _ => true | _ => false) then
    match value with
    | .pcoords lat lng => .ok (latLngToEuringCoordinates lat lng)
    | _ => .error ("unreachable".data)
  else if f.etype = .integer
      && (match value with | .pstr s => isAllHyphens s | _ => false) then
    .ok (serializeEmptyFieldValue f format)
  else
    match fieldEncode fd value with
    | .error e => .error e
    | .ok vs0 =>
      if f.etype = .numeric || f.etype = .numericSigned then
        let vs1 := if '.' ∈ vs0 then rstripChars (· = '.') (rstripChars (· = '0') vs0) else vs0
        .ok (if padNumeric then zfill L vs1 else vs1)
      else if f.etype = .integer then
        .ok (if padInteger then zfill L vs0 else vs0)
      else .ok vs0

/-- `record._fixed_width_fields`: the EURING2000 fields up to position 94. -/
def fixedWidthFieldsGo : List FieldDef → Nat → List FieldDef
  | [], _ => []
  | f :: rest, start =>
    if 94 ≤ start then []
    else
      match f.length with
      | none => []
      | some L => if L = 0 then [] else f :: fixedWidthFieldsGo rest (start + L)

/-- `record._fixed_width_fields` applied to the EURING2000 list. -/
def fixedWidthFields : List FieldDef := fixedWidthFieldsGo euring2000Fields 0

/-- The hyphen padding `record._format_fixed_width` applies to one value:
full hyphen fill when empty, right-padding with hyphens and truncation at
the width otherwise. -/
def fixedWidthPad (L : Nat) (v : Str) : Str :=
  if v.isEmpty then List.replicate L '-' else (ljustWith L '-' v).take L

/-- `record._format_fixed_width`: pack values at their declared widths,
hyphen-filling empty values and right-padding short ones with hyphens. -/
def formatFixedWidth (vals : List (Str × Str)) (fields : List FieldDef) : Str :=
  (fields.map (fun f => fixedWidthPad (f.length.getD 0) (valuesGet vals f.key))).flatten

/-! ## Raw decoding (`record._decode_raw_record`) -/

/-- A record-level (structural) error. -/
structure RecordError where
  message : Str
deriving DecidableEq, Repr

/-- Result of `record._decode_raw_record`. -/
structure DecodedRaw where
  format : EuringFormat
  values : List (Str × Str)
  recordErrors : List RecordError
deriving DecidableEq, Repr

/-- Slice a fixed-width record at the declared field widths. -/
def sliceFixedGo : List FieldDef → Str → Nat → List (Str × Str)
  | [], _, _ => []
  | f :: rest, v, start =>
    let L := f.length.getD 0
    (f.key, (v.drop start).take L) :: sliceFixedGo rest v (start + L)

/-- `record._decode_raw_record` for string input: pipe-free text is sliced as
EURING2000 (flagging a conflicting hint and non-blank trailing data), piped
text is split and mapped positionally onto the canonical keys (flagging a
EURING2000 hint), and an unhinted pipe record is promoted to EURING2020 when
2020-only content is present. -/
def decodeRawRecord (value : Str) (formatHint : Option EuringFormat) : DecodedRaw :=
  let fields := pySplit '|' value
  if fields.length ≤ 1 then
    let errs1 : List RecordError :=
      match formatHint with
      | some f =>
        if f ≠ .euring2000 then
          [⟨"Format ".data ++ formatDisplayName f ++ " conflicts with fixed-width EURING2000 data.".data⟩]
        else []
      | none => []
    let vals := sliceFixedGo fixedWidthFields value 0
    let start := (fixedWidthFields.map (fun f => f.length.getD 0)).sum
    let errs2 : List RecordError :=
      if (pyStrip (value.drop start)).isEmpty then []
      else [⟨"Value ".data ++ value ++ " invalid EURING2000 code beyond position ".data
              ++ natRepr start ++ ".".data⟩]
    ⟨.euring2000, vals, errs1 ++ errs2⟩
  else
    let errs1 : List RecordError :=
      if formatHint = some .euring2000 then
        [⟨"Format EURING2000 conflicts with pipe-delimited data.".data⟩]
      else []
    let current := formatHint.getD .euring2000plus
    let vals := (euringFields.zip fields).map (fun p => (p.1.key, p.2))
    let promoted :=
      if formatHint.isNone && requiresEuring2020 vals then .euring2020 else current
    ⟨promoted, vals, errs1⟩

/-! ## Record state and validation (`record.EuringRecord`) -/

/-- One field slot of a record: the original wire text (if decoded) and the
current value. -/
structure Slot where
  raw : Option Str
  value : PyVal
deriving DecidableEq, Repr

/-- Record slots keyed by field key. -/
abbrev Slots := List (Str × Slot)

/-- `self._fields.get(key, {}).get("value")`: `None` for a missing slot. -/
def slotValueOrNone (slots : Slots) (k : Str) : PyVal :=
  match alookup slots k with
  | some sl => sl.value
  | none => .pnone

/-- `self._fields.get(key, {}).get("value", "")`: `""` for a missing slot. -/
def slotValueOrEmptyStr (slots : Slots) (k : Str) : PyVal :=
  match alookup slots k with
  | some sl => sl.value
  | none => .pstr []

/-- The `needs_geo_dots` flag of `record._validate_fields`: an EURING2020
record with a latitude or longitude value present. -/
def needsGeoDotsFor (format : EuringFormat) (slots : Slots) : Bool :=
  format = .euring2020 &&
    (!(slotValueOrNone slots ("latitude".data)).isEmpty
      || !(slotValueOrNone slots ("longitude".data)).isEmpty)

/-- The per-field body of `record._validate_fields`: re-serialize the current
value to raw text (substituting the dotted placeholder for an empty
geographical coordinate when latitude/longitude are present), parse it back,
and null the parse of a value that was empty. The modelled table wires no
description lookups, so `describe` never fails. -/
def validateFieldSlot (format : EuringFormat) (needsGeoDots : Bool) (f : FieldDef)
    (slotValue : PyVal) : Except Str (Option PyVal) :=
  let hadEmpty := slotValue.isEmpty
  let fd := if format = .euring2000 && f.variableLength then
      { f with variableLength := false } else f
  match serializeFieldValue f slotValue format with
  | .error e => .error e
  | .ok rawValue0 =>
    let rawValue :=
      if f.key = "geographical_coordinates".data && hadEmpty && needsGeoDots then geoDots
      else rawValue0
    match fieldParse fd rawValue with
    | .error e => .error e
    | .ok parsed => .ok (if hadEmpty && !rawValue.isEmpty then none else parsed)

/-- The display string stored in a field error payload. -/
def PyVal.errStr : PyVal → Str
  | .pnone => []
  | v => v.pyStr

/-- A field-level error payload. -/
structure FieldError where
  field : Str
  message : Str
  value : Str
  key : Str
  index : Option Nat
  position : Option (Nat × Nat)
deriving DecidableEq, Repr

/-- `record._field_positions`: 1-based character positions of fixed-width
fields. -/
def fieldPositionsGo : List FieldDef → Nat → List (Str × (Nat × Nat))
  | [], _ => []
  | f :: rest, start =>
    match f.length with
    | none => fieldPositionsGo rest start
    | some L =>
      if L = 0 then fieldPositionsGo rest start
      else (f.key, (start, L)) :: fieldPositionsGo rest (start + L)

/-- Position metadata attached to fixed-width field errors. -/
def fieldPositionFor (format : EuringFormat) (k : Str) : Option (Nat × Nat) :=
  if format = .euring2000 then
    alookup (fieldPositionsGo (fieldsForFormat format) 1) k
  else none

/-- `record._validate_fields`, error part: one error payload per field whose
validation body raises. -/
def validateFieldsErrors (format : EuringFormat) (slots : Slots) : List FieldError :=
  let ngd := needsGeoDotsFor format slots
  (fieldsForFormat format).enum.filterMap (fun p =>
    let f := p.2
    let v := slotValueOrEmptyStr slots f.key
    match validateFieldSlot format ngd f v with
    | .ok _ => none
    | .error msg => some ⟨f.name, msg, v.errStr, f.key, some p.1, fieldPositionFor format f.key⟩)

/-- The Python value a parse result stores in a slot (`None` for a nulled
parse). -/
def parsedVal : Option PyVal → PyVal
  | some v => v
  | none => .pnone

/-- The per-slot update of `record._validate_fields`: the slot of a field of
the format gets its parsed value written back (errors leave it unchanged). -/
def vSlot (format : EuringFormat) (ngd : Bool) (k : Str) (sl : Slot) : Slot :=
  match (fieldsForFormat format).find? (fun f => f.key = k) with
  | none => sl
  | some f =>
    match validateFieldSlot format ngd f sl.value with
    | .error _ => sl
    | .ok parsed => { sl with value := parsedVal parsed }

/-- `record._validate_fields`, state part: each slot of a field of the format
gets its parsed value written back (errors leave the slot unchanged). -/
def validatedSlots (format : EuringFormat) (slots : Slots) : Slots :=
  let ngd := needsGeoDotsFor format slots
  slots.map (fun p => (p.1, vSlot format ngd p.1 p.2))

/-- `record._validate_record_rules`, value assembly: the original wire text
where present, else the re-serialized current value (empty on failure). -/
def ruleValuesByKey (format : EuringFormat) (slots : Slots) : List (Str × Str) :=
  (fieldsForFormat format).map (fun f =>
    match alookup slots f.key with
    | some sl =>
      match sl.raw with
      | some r => (f.key, r)
      | none =>
        match serializeFieldValue f sl.value format with
        | .ok s => (f.key, s)
        | .error _ => (f.key, [])
    | none =>
      match serializeFieldValue f (.pstr []) format with
      | .ok s => (f.key, s)
      | .error _ => (f.key, []))

/-- `record._validate_record_rules`, dotted-placeholder substitution for
EURING2020 records carrying latitude/longitude. -/
def ruleValuesWithGeoSub (format : EuringFormat) (vals : List (Str × Str)) : List (Str × Str) :=
  if format = .euring2020
      && (!(valuesGet vals ("latitude".data)).isEmpty
          || !(valuesGet vals ("longitude".data)).isEmpty)
      && (valuesGet vals ("geographical_coordinates".data)).isEmpty then
    aset vals ("geographical_coordinates".data) geoDots
  else vals

/-- `record._record_error_for_key`: promote a rule error to a field error
payload with the field's display name and canonical order. -/
def recordErrorForKey (k msg value : Str) : FieldError :=
  match euringFields.find? (fun f => f.key = k) with
  | some f => ⟨f.name, msg, value, k, fieldIndex k, none⟩
  | none => ⟨k, msg, value, k, none, none⟩

/-- The structured errors payload of a record. -/
structure RecordErrors where
  record : List RecordError
  fields : List FieldError
deriving DecidableEq, Repr

/-- `EuringRecord.has_errors`. -/
def hasErrors (e : RecordErrors) : Bool := !e.record.isEmpty || !e.fields.isEmpty

/-- `EuringRecord._has_non_optional_errors`: anything beyond missing
required fields. -/
def hasNonOptionalErrors (e : RecordErrors) : Bool :=
  !e.record.isEmpty || e.fields.any (fun err => err.message ≠ requiredEmptyMsg)

/-- `EuringRecord.validate`: field-level validation followed by record-level
rules, with the mutated slots. -/
def validateRecord (format : EuringFormat) (slots : Slots) : RecordErrors × Slots :=
  let ferrs := validateFieldsErrors format slots
  let slots2 := validatedSlots format slots
  let vals := ruleValuesWithGeoSub format (ruleValuesByKey format slots2)
  let rerrs := (recordRuleErrors format vals).map (fun e => recordErrorForKey e.key e.message e.value)
  (⟨[], ferrs ++ rerrs⟩, slots2)

/-- The slot population step of `EuringRecord.decode` (`_set_raw_value`):
raw and value both set to the wire text. -/
def decodeSlots (value : Str) (formatHint : Option EuringFormat) : Slots :=
  (decodeRawRecord value formatHint).values.map (fun p => (p.1, ⟨some p.2, .pstr p.2⟩))

/-- `EuringRecord.decode`: raw decode, slot population, then validation;
structural errors are prepended. -/
def euringDecode (value : Str) (formatHint : Option EuringFormat) :
    EuringFormat × Slots × RecordErrors :=
  let d := decodeRawRecord value formatHint
  let slots : Slots := decodeSlots value formatHint
  let r := validateRecord d.format slots
  let errs :=
    if d.recordErrors.isEmpty then r.1
    else ⟨d.recordErrors ++ r.1.record, r.1.fields⟩
  (d.format, r.2, errs)

/-- The claim's validity notion: decoding yields no record, field, or rule
errors. -/
def decodeIsValid (value : Str) (formatHint : Option EuringFormat) : Bool :=
  !(hasErrors (euringDecode value formatHint).2.2)

/-- `EuringRecord._serialize`, per-field token: the dotted placeholder for an
empty geographical coordinate when latitude/longitude are present, else the
re-serialized and re-encoded value. -/
def serializeToken (format : EuringFormat) (geoPlaceholder : Bool) (f : FieldDef)
    (value : PyVal) : Except Str Str :=
  if f.key = "geographical_coordinates".data && value.isEmpty && geoPlaceholder then
    .ok geoDots
  else
    match serializeFieldValue f value format with
    | .error e => .error e
    | .ok rawValue =>
      if rawValue.isEmpty then .ok []
      else
        let fd := if format = .euring2000 && f.variableLength then
            { f with variableLength := false } else f
        fieldEncode fd (.pstr rawValue)

/-- `EuringRecord._serialize`, token assembly over a field list. -/
def serializeTokensGo (format : EuringFormat) (geoPlaceholder : Bool) (slots : Slots) :
    List FieldDef → Except Str (List (Str × Str))
  | [] => .ok []
  | f :: rest =>
    match serializeToken format geoPlaceholder f (slotValueOrNone slots f.key),
        serializeTokensGo format geoPlaceholder slots rest with
    | .ok t, .ok r => .ok ((f.key, t) :: r)
    | .error e, _ => .error e
    | _, .error e => .error e

/-- `EuringRecord._serialize`, token assembly over the format's field list. -/
def serializeTokens (format : EuringFormat) (slots : Slots) :
    Except Str (List (Str × Str)) :=
  serializeTokensGo format (needsGeoDotsFor format slots) slots (fieldsForFormat format)

/-- `EuringRecord._serialize`: fixed-width packing for EURING2000, else a
pipe join over the canonical field list. -/
def serializeRecordText (format : EuringFormat) (slots : Slots) : Except Str Str :=
  match serializeTokens format slots with
  | .error e => .error e
  | .ok vals =>
    if format = .euring2000 then .ok (formatFixedWidth vals fixedWidthFields)
    else .ok (joinSep '|' ((fieldsForFormat format).map (fun f => valuesGet vals f.key)))

/-- `EuringRecord.serialize` on a decoded (non-strict) record: re-validate,
fail on any error beyond missing required fields, then serialize the
re-validated slots. -/
def serializeAfterDecode (format : EuringFormat) (slots : Slots) : Except Str Str :=
  let r := validateRecord format slots
  if hasErrors r.1 && hasNonOptionalErrors r.1 then
    .error ("Record validation failed.".data)
  else serializeRecordText format r.2

/-- `EuringRecord.decode(value, format).serialize()`: the round trip of the
spec's §8 property. -/
def decodeThenSerialize (value : Str) (formatHint : Option EuringFormat) : Except Str Str :=
  let d := euringDecode value formatHint
  serializeAfterDecode d.1 d.2.1

/-! ## Format conversion (`record.py` conversion helpers) -/

/-- Python string comparison (lexicographic by code point). -/
def strLe : Str → Str → Bool
  | [], _ => true
  | _ :: _, [] => false
  | a :: as, b :: bs => if a = b then strLe as bs else decide (a < b)

/-- The loss reasons collected by `record._require_force_on_loss`: 2020-only
values, alphabetic accuracy, and (for a fixed-width target) values outside
the fixed-width field set. -/
def lossReasons (vals : List (Str × Str)) (target : EuringFormat) : List Str :=
  let r1 :=
    if target = .euring2000 || target = .euring2000plus then
      (["latitude".data, "longitude".data, "current_place_code".data,
        "more_other_marks".data].filterMap
        (fun k => if (valuesGet vals k).isEmpty then none else some ("drop ".data ++ k)))
      ++ (if pyIsAlpha (valuesGet vals ("accuracy_of_coordinates".data)) then
            ["alphabetic coordinate accuracy".data] else [])
    else []
  let r2 :=
    if target = .euring2000 then
      vals.filterMap (fun p =>
        if (fixedWidthFields.any (fun f => f.key = p.1)) || p.2.isEmpty then none
        else some ("drop ".data ++ p.1))
    else []
  r1 ++ r2

/-- The single message raised by `record._require_force_on_loss`: the
sorted, de-duplicated reasons joined with commas. -/
def lossMessage (reasons : List Str) : Str :=
  "Conversion would lose data. Use --force to proceed. Potential losses: ".data
    ++ joinWith (", ".data) (reasons.dedup.mergeSort strLe) ++ ".".data

/-- `record._require_force_on_loss`: `some message` when the conversion
would lose data and `force` is not set. -/
def requireForceOnLoss (vals : List (Str × Str)) (target : EuringFormat)
    (force : Bool) : Option Str :=
  let reasons := lossReasons vals target
  if !reasons.isEmpty && !force then some (lossMessage reasons) else none

/-- Python `str.upper` (ASCII). -/
def pyUpper (s : Str) : Str := s.map Char.toUpper

/-- The fixed table of `record._map_alpha_accuracy_to_numeric`. -/
def alphaAccuracyTable : List (Str × Str) :=
  [(['A'], ['0']), (['B'], ['0']), (['C'], ['0']), (['D'], ['0']), (['E'], ['0']),
   (['F'], ['0']), (['G'], ['0']), (['H'], ['1']), (['I'], ['2']), (['J'], ['4']),
   (['K'], ['5']), (['L'], ['6']), (['M'], ['7']), (['Z'], ['9'])]

/-- `record._map_alpha_accuracy_to_numeric`: look the upper-cased code up in
the fixed table. -/
def mapAlphaAccuracyToNumeric (code : Str) : Option Str :=
  alookup alphaAccuracyTable (pyUpper code)

/-- `record._apply_coordinate_downgrade`: for a non-EURING2020 target, map an
alphabetic accuracy code through the fixed table (an error without `force`,
and an unmapped code is an error even with it), then regenerate a blank
geographical coordinate from latitude/longitude when both are present. -/
def applyCoordinateDowngrade (vals : List (Str × Str)) (target : EuringFormat)
    (force : Bool) : Except Str (List (Str × Str)) :=
  if target ≠ .euring2000 && target ≠ .euring2000plus then .ok vals
  else
    let accuracy := valuesGet vals ("accuracy_of_coordinates".data)
    let step1 : Except Str (List (Str × Str)) :=
      if pyIsAlpha accuracy then
        if !force then
          .error ("Alphabetic accuracy codes are only valid in euring2020. Use --force to apply lossy mapping.".data)
        else
          match mapAlphaAccuracyToNumeric accuracy with
          | none => .error ("Unsupported alphabetic accuracy code ".data ++ accuracy ++ ".".data)
          | some mapped => .ok (aset vals ("accuracy_of_coordinates".data) mapped)
      else .ok vals
    match step1 with
    | .error e => .error e
    | .ok vals2 =>
      let coords := valuesGet vals2 ("geographical_coordinates".data)
      if !(pyStrip coords).isEmpty then .ok vals2
      else
        let lat := valuesGet vals2 ("latitude".data)
        let lng := valuesGet vals2 ("longitude".data)
        if lat.isEmpty || lng.isEmpty then .ok vals2
        else
          match pyFloat lat, pyFloat lng with
          | some la, some lo =>
            .ok (aset vals2 ("geographical_coordinates".data)
              (latToEuringCoordinate la ++ lngToEuringCoordinate lo))
          | _, _ => .error ("could not convert string to float.".data)

/-- `record._normalize_source_format`: use the given source format, else
detect — no pipe means EURING2000; an alphabetic accuracy token or tokens
beyond the `reference` field mean EURING2020; else EURING2000+. -/
def normalizeSourceFormat (sourceFormat : Option EuringFormat) (value : Str) : EuringFormat :=
  match sourceFormat with
  | some f => f
  | none =>
    if '|' ∉ value then .euring2000
    else
      let values := pySplit '|' value
      let referenceIndex := (fieldIndex ("reference".data)).getD 0
      let accuracyValue := euringValueFromList values ("accuracy_of_coordinates".data)
      if pyIsAlpha accuracyValue || referenceIndex + 1 < values.length then .euring2020
      else .euring2000plus

/-- Fixed-width slicing of `record._split_fixed_width` (short trailing
chunks are right-padded with spaces). -/
def splitFixedChunksGo : List FieldDef → Str → Nat → List Str
  | [], _, _ => []
  | f :: rest, v, start =>
    let L := f.length.getD 0
    let chunk := (v.drop start).take L
    (if chunk.length < L then ljustWith L ' ' chunk else chunk)
      :: splitFixedChunksGo rest v (start + L)

/-- `record._split_fixed_width`: reject piped, short, or over-long input,
then slice at the declared widths. -/
def splitFixedWidth (value : Str) : Except Str (List Str) :=
  if '|' ∈ value then
    .error ("Input appears to be pipe-delimited, not fixed-width euring2000.".data)
  else if value.length < 94 then
    .error ("euring2000 record must be 94 characters long.".data)
  else if 94 < value.length && !(pyStrip (value.drop 94)).isEmpty then
    .error ("euring2000 record contains extra data beyond position 94.".data)
  else .ok (splitFixedChunksGo fixedWidthFields value 0)

/-- `record._map_fields_to_values`: values keyed positionally, empty beyond
the end of the token list. -/
def mapFieldsToValues (fields : List FieldDef) (values : List Str) : List (Str × Str) :=
  fields.enum.map (fun p => (p.2.key, (values.drop p.1).headD []))

/-- Result of `record._convert_record_data`. -/
structure ConvertData where
  target : EuringFormat
  values : List (Str × Str)
  targetFields : List FieldDef
deriving DecidableEq, Repr

/-- The input-splitting step of `record._convert_record_data`: fixed-width
slicing for a EURING2000 source, otherwise a pipe split rejecting surplus
non-blank tokens; returns the tokens with the source field list. -/
def convertSplit (value : Str) (src : EuringFormat) :
    Except Str (List Str × List FieldDef) :=
  if src = .euring2000 then
    match splitFixedWidth value with
    | .error e => .error e
    | .ok fs => .ok (fs, fixedWidthFields)
  else
    let fs := pySplit '|' value
    let sourceFields := fieldsForFormat src
    if sourceFields.length < fs.length
        && (fs.drop sourceFields.length).any (fun part => !(pyStrip part).isEmpty) then
      .error ("Input has more fields than expected for the declared format. Use euring2020 when 2020-only fields are present.".data)
    else .ok (fs, sourceFields)

/-- `record._convert_record_data`: resolve formats, split the source record,
run the loss guard and the coordinate downgrade, and return the values with
the target field list. -/
def convertRecordData (value : Str) (sourceFormat : Option EuringFormat)
    (target : EuringFormat) (force : Bool) : Except Str ConvertData :=
  let src := normalizeSourceFormat sourceFormat value
  match convertSplit value src with
  | .error e => .error e
  | .ok p =>
    let vals := mapFieldsToValues p.2 p.1
    match requireForceOnLoss vals target force with
    | some msg => .error msg
    | none =>
      match applyCoordinateDowngrade vals target force with
      | .error e => .error e
      | .ok vals2 => .ok ⟨target, vals2, fieldsForFormat target⟩

/-- `record._convert_record_string`: convert and re-encode as fixed-width
text or a pipe join over the target field list. -/
def convertRecordString (value : Str) (sourceFormat : Option EuringFormat)
    (target : EuringFormat) (force : Bool) : Except Str Str :=
  match convertRecordData value sourceFormat target force with
  | .error e => .error e
  | .ok d =>
    if d.target = .euring2000 then .ok (formatFixedWidth d.values d.targetFields)
    else .ok (joinSep '|' (d.targetFields.map (fun f => valuesGet d.values f.key)))

/-! ## Round-trip scaffolding

The spec's §8 round-trip property quantifies over all valid records; the
definitions below name the canonical shape of a record and the per-field
re-encoding that `decode` followed by `serialize` performs, so that the
round-trip statement can be made precise. -/

/-- Parallel slicing of a fixed-width record (the tokens of
`sliceFixedGo`). -/
def sliceTokens : List FieldDef → Str → Nat → List Str
  | [], _, _ => []
  | f :: rest, v, start =>
    (v.drop start).take (f.length.getD 0) :: sliceTokens rest v (start + f.length.getD 0)

/-- The wire tokens of a record: fixed-width slices for EURING2000, pipe
tokens otherwise. -/
def wireTokens (format : EuringFormat) (value : Str) : List Str :=
  if format = .euring2000 then sliceTokens fixedWidthFields value 0
  else pySplit '|' value

/-- The canonical wire shape of a record: exactly 94 pipe-free characters
for EURING2000, exactly the canonical token count for the pipe formats. -/
def canonicalShape (format : EuringFormat) (value : Str) : Bool :=
  match format with
  | .euring2000 => !('|' ∈ value : Bool) && decide (value.length = 94)
  | .euring2000plus => decide ((pySplit '|' value).length = 60)
  | .euring2020 => decide ((pySplit '|' value).length = 64)

/-- The per-field re-encoding that `decode` followed by `serialize`
performs on one wire token: validate on decode (`ngd1`), re-validate inside
`serialize` (`ngd2`), then serialize the parsed value (`gps` is the
geo-placeholder flag); `none` when any step errors. -/
def fieldTokenReencode (format : EuringFormat) (ngd1 ngd2 gps : Bool) (f : FieldDef)
    (t : Str) : Option Str :=
  match validateFieldSlot format ngd1 f (.pstr t) with
  | .error _ => none
  | .ok parsed1 =>
    match validateFieldSlot format ngd2 f (parsedVal parsed1) with
    | .error _ => none
    | .ok parsed2 =>
      match serializeToken format gps f (parsedVal parsed2) with
      | .error _ => none
      | .ok s => some s

/-- The final wire token produced for a field (fixed-width tokens get the
hyphen padding of `record._format_fixed_width`). -/
def finalTokenFor (format : EuringFormat) (ngd1 ngd2 gps : Bool) (f : FieldDef)
    (t : Str) : Option Str :=
  match fieldTokenReencode format ngd1 ngd2 gps f t with
  | none => none
  | some s => some (if format = .euring2000 then fixedWidthPad (f.length.getD 0) s else s)

/-- The wire token `_serialize` produces for one field (empty on error). -/
def tokOf (format : EuringFormat) (gps : Bool) (slots : Slots) (f : FieldDef) : Str :=
  match serializeToken format gps f (slotValueOrNone slots f.key) with
  | .ok s => s
  | .error _ => []

/-- Every wire token of the record is a fixed point of the contextual
per-field re-encoding of `decode` followed by `serialize`. -/
def roundTripTokensFixed (format : EuringFormat) (value : Str) : Bool :=
  let slots1 := decodeSlots value (some format)
  let ngd1 := needsGeoDotsFor format slots1
  let slots2 := (validateRecord format slots1).2
  let ngd2 := needsGeoDotsFor format slots2
  let slots3 := (validateRecord format slots2).2
  let gps := needsGeoDotsFor format slots3
  let flds := if format = .euring2000 then fixedWidthFields else fieldsForFormat format
  let toks := wireTokens format value
  (flds.zip toks).all (fun p => finalTokenFor format ngd1 ngd2 gps p.1 p.2 == some p.2)

/-- The slot state after decoding (`EuringRecord.decode` population). -/
def rtSlots1 (format : EuringFormat) (value : Str) : Slots :=
  decodeSlots value (some format)

/-- The geo-dots flag of the decode-time validation pass. -/
def rtNgd1 (format : EuringFormat) (value : Str) : Bool :=
  needsGeoDotsFor format (rtSlots1 format value)

/-- The slot state after the decode-time validation pass. -/
def rtSlots2 (format : EuringFormat) (value : Str) : Slots :=
  (validateRecord format (rtSlots1 format value)).2

/-- The geo-dots flag of the serialize-time validation pass. -/
def rtNgd2 (format : EuringFormat) (value : Str) : Bool :=
  needsGeoDotsFor format (rtSlots2 format value)

/-- The slot state after the serialize-time validation pass. -/
def rtSlots3 (format : EuringFormat) (value : Str) : Slots :=
  (validateRecord format (rtSlots2 format value)).2

/-- The geo-placeholder flag of the final token serialization. -/
def rtGps (format : EuringFormat) (value : Str) : Bool :=
  needsGeoDotsFor format (rtSlots3 format value)

deriving instance DecidableEq for Except

/-- The Time field definition (used as a concrete witness field). -/
def timeField : FieldDef :=
  { key := "time".data, name := "Time".data, etype := .integer, length := some 4 }

/-! ## Concrete example records

Records assembled from the repository test fixtures
(`tests/fixtures.py` field values), used as concrete instances. -/

/-- A 33-token EURING2000+ record with the fixture field values (canonical
15-character coordinates). -/
def exampleRecord33 : Str :=
  "GBB|A0|1234567890|0|1|ZZ|00010|00010|N|0|M|U|U|U|2|2|U|99|99|0|01012024|0|0000|AB00|+000000+0000000|1|9|99|0|4|00000|000|00000".data

/-- The serialization of the decoded `exampleRecord33`: the full 60-token
canonical EURING2000+ encoding (variable-length integers trimmed, optional
fields empty). -/
def exampleRecord60 : Str :=
  "GBB|A0|1234567890|0|1|ZZ|00010|00010|N|0|M|U|U|U|2|2|U|99|99|0|01012024|0|0000|AB00|+000000+0000000|1|9|99|0|4|0|000|0|||||||||||||||||||||||||||".data

/-- A 64-token EURING2020 record carrying the alphabetic coordinate accuracy
code `A`. -/
def exampleRecord2020A : Str :=
  "GBB|A0|1234567890|0|1|ZZ|00010|00010|N|0|M|U|U|U|2|2|U|99|99|0|01012024|0|0000|AB00|+000000+0000000|A|9|99|0|4|00000|000|00000||||||||||||||||||||||||||||||".data

/-- The EURING2000+ output of converting `exampleRecord2020A` with force:
the accuracy field is downgraded to `0`. -/
def exampleConverted2000plus : Str :=
  "GBB|A0|1234567890|0|1|ZZ|00010|00010|N|0|M|U|U|U|2|2|U|99|99|0|01012024|0|0000|AB00|+000000+0000000|0|9|99|0|4|00000|000|00000|||||||||||||||||||||||||||".data

/-- A 94-character fixed-width EURING2000 record with the alphabetic
accuracy code `A` at the accuracy-of-coordinates position (offset 75). -/
def exampleRecord2000A : Str :=
  "000000000000000000000000000000000000000000000000000000000000000000000000000A000000000000000000".data

/-! # Theorems -/

set_option maxRecDepth 1000000

/-- C10: `parse_geographical_coordinates` returns an absent value without
error on the 15-dot placeholder, and always fails with a constraint error on
`None` input. -/
theorem parse_geo_placeholder_and_none :
    parseGeographicalCoordinates (some geoDots) = .ok none ∧
    parseGeographicalCoordinates none = .error coordError := by
  exact ⟨rfl, rfl⟩

/-- The truncated degrees are negative exactly for values at or below -1. -/
theorem ratTrunc_neg_iff (v : ℚ) : ratTrunc v < 0 ↔ v ≤ -1 := by
  unfold ratTrunc
  by_cases h : 0 ≤ v
  · rw [if_pos h]
    constructor
    · intro hlt
      exact absurd (Int.floor_nonneg.mpr h) (by omega)
    · intro hle
      exact absurd (le_trans h hle) (by norm_num)
  · rw [if_neg h]
    constructor
    · intro hlt
      have hle : ⌈v⌉ ≤ -1 := by omega
      have := Int.ceil_le.mp hle
      simpa using this
    · intro hle
      have h1 : ⌈v⌉ ≤ (-1 : Int) := Int.ceil_le.mpr (by exact_mod_cast hle)
      omega

/-- The first character of the DMS text is the quadrant character. -/
theorem dms_head (value : ℚ) (d : Nat) :
    (decimalToEuringCoordinate value d).headD ' '
      = (if ratTrunc value < 0 then '-' else '+') := rfl

/-- C7 counterexample: `-0.5` is a negative input value whose DMS text
begins with `'+'`, refuting "every negative input value produces a text
beginning with '-'". -/
theorem dms_sign_counterexample :
    (-1/2 : ℚ) < 0 ∧ (decimalToEuringCoordinate (-1/2) 2).headD ' ' = '+' := by
  constructor
  · norm_num
  · with_unfolding_all decide

/-- C7 (amended): the DMS text's sign character is taken from the truncated
degrees, so it begins with `'-'` exactly for inputs at or below -1 and with
`'+'` for all inputs above -1 (including negative fractions). -/
theorem dms_sign_amended (value : ℚ) (d : Nat) :
    (value ≤ -1 → (decimalToEuringCoordinate value d).headD ' ' = '-') ∧
    (-1 < value → (decimalToEuringCoordinate value d).headD ' ' = '+') := by
  constructor
  · intro h
    rw [dms_head, if_pos ((ratTrunc_neg_iff value).mpr h)]
  · intro h
    rw [dms_head, if_neg (fun hc => absurd ((ratTrunc_neg_iff value).mp hc) (by linarith))]

/-- Witness for C7 (amended) at concrete inputs. -/
theorem dms_sign_amended_witness :
    (decimalToEuringCoordinate (-2) 2).headD ' ' = '-' ∧
    (decimalToEuringCoordinate (-1/2) 3).headD ' ' = '+' :=
  ⟨(dms_sign_amended (-2) 2).1 (by norm_num), (dms_sign_amended (-1/2) 3).2 (by norm_num)⟩

/-- C8: decoding a combined coordinate string fails with the constraint
error whenever the length is not 15, and whenever a 15-character string has
an invalid latitude or longitude component. -/
theorem combined_coordinates_invalid_rejected (s : Str) :
    (s.length ≠ 15 → combinedToLatLng s = .error coordError) ∧
    (s.length = 15 →
      (validEuringCoordinateComponent (s.take 7) 2 90 = false ∨
        validEuringCoordinateComponent (s.drop 7) 3 180 = false) →
      combinedToLatLng s = .error coordError) := by
  constructor
  · intro h
    simp [combinedToLatLng, validateEuringCoordinates, h]
  · intro h hcomp
    by_cases h1 : validEuringCoordinateComponent (s.take 7) 2 90
    · rcases hcomp with hc | hc
      · rw [h1] at hc; cases hc
      · simp [combinedToLatLng, validateEuringCoordinates, h, h1, hc]
    · rw [Bool.not_eq_true] at h1
      simp [combinedToLatLng, validateEuringCoordinates, h, h1]

/-- Witness for C8 at concrete inputs: a short string, and a 15-character
string whose latitude component has no sign. -/
theorem combined_coordinates_invalid_rejected_witness :
    combinedToLatLng ("abc".data) = .error coordError ∧
    combinedToLatLng ("000000000000000".data) = .error coordError :=
  ⟨(combined_coordinates_invalid_rejected ("abc".data)).1 (by decide),
   (combined_coordinates_invalid_rejected ("000000000000000".data)).2 (by decide)
     (Or.inl (by decide))⟩

/-- An all-hyphen string is non-empty. -/
theorem isAllHyphens_not_empty {s : Str} (hh : isAllHyphens s = true) : s.isEmpty = false := by
  simp only [isAllHyphens, Bool.and_eq_true] at hh
  simpa using hh.1

/-- C9: encoding an all-hyphen string value of an Integer field produces the
same wire text as encoding an absent value, in both the field-schema
encoder (`EuringField.encode_for_format`) and the record serializer
(`record._serialize_field_value`). -/
theorem integer_hyphens_encode_as_absent (f : FieldDef) (format : EuringFormat) (s : Str)
    (ht : f.etype = .integer) (hh : isAllHyphens s = true) :
    encodeForFormat f (.pstr s) format = encodeForFormat f .pnone format ∧
    serializeFieldValue f (.pstr s) format = serializeFieldValue f .pnone format := by
  have hne : (PyVal.pstr s).isEmpty = false := isAllHyphens_not_empty hh
  constructor
  · unfold encodeForFormat
    rw [hne]
    simp only [Bool.false_eq_true, if_false, PyVal.isEmpty, if_true]
    rw [ht]
    simp [hh]
  · unfold serializeFieldValue
    rw [hne]
    simp only [Bool.false_eq_true, if_false, PyVal.isEmpty, if_true]
    rw [ht]
    simp [hh]

/-- Witness for C9: the Time field with the value `"----"`. -/
theorem integer_hyphens_encode_as_absent_witness :
    encodeForFormat timeField (.pstr ("----".data)) .euring2000plus
      = encodeForFormat timeField .pnone .euring2000plus :=
  (integer_hyphens_encode_as_absent timeField .euring2000plus ("----".data) rfl (by decide)).1

/-! ## Association-list lemmas -/

/-- Updating a key and looking it up yields the new value. -/
theorem alookup_aset_same (l : List (Str × Str)) (k v : Str) :
    alookup (aset l k v) k = some v := by
  induction l with
  | nil => simp [aset, alookup]
  | cons p rest ih =>
    obtain ⟨k2, w⟩ := p
    by_cases h : k2 = k
    · simp [aset, alookup, h]
    · simp [aset, alookup, h, ih]

/-- Updating one key leaves other lookups unchanged. -/
theorem alookup_aset_other (l : List (Str × Str)) (k k2 v : Str) (h : k ≠ k2) :
    alookup (aset l k v) k2 = alookup l k2 := by
  induction l with
  | nil => simp [aset, alookup, h]
  | cons p rest ih =>
    obtain ⟨k3, w⟩ := p
    by_cases h3 : k3 = k
    · subst h3
      simp [aset, alookup, h]
    · simp only [aset, if_neg h3, alookup]
      by_cases h4 : k3 = k2
      · simp [h4]
      · simp [h4, ih]

/-- `valuesGet` after updating the same key. -/
theorem valuesGet_aset_same (l : List (Str × Str)) (k v : Str) :
    valuesGet (aset l k v) k = v := by
  unfold valuesGet
  rw [alookup_aset_same]

/-- `valuesGet` after updating a different key. -/
theorem valuesGet_aset_other (l : List (Str × Str)) (k k2 v : Str) (h : k ≠ k2) :
    valuesGet (aset l k v) k2 = valuesGet l k2 := by
  unfold valuesGet
  rw [alookup_aset_other l k k2 v h]

/-! ## C5: latitude without longitude -/

/-- C5: validating an EURING2020 record with `latitude` set, `longitude`
empty, and an otherwise rule-conforming geographical coordinate (empty, or
the dotted placeholder) yields exactly one rule error, on `longitude`, and
none on `geographical_coordinates`. -/
theorem euring2020_lat_without_lng_single_error (vals : List (Str × Str))
    (hlat : valuesGet vals ("latitude".data) ≠ [])
    (hlng : valuesGet vals ("longitude".data) = [])
    (hgeo : valuesGet vals ("geographical_coordinates".data) = [] ∨
            valuesGet vals ("geographical_coordinates".data) = geoDots) :
    recordRuleErrors .euring2020 (ruleValuesWithGeoSub .euring2020 vals)
      = [⟨"longitude".data, "Longitude is required when Latitude is provided.".data, []⟩] := by
  have hlatE : (valuesGet vals ("latitude".data)).isEmpty = false := by
    cases hv : valuesGet vals ("latitude".data) with
    | nil => exact absurd hv hlat
    | cons a s => rfl
  rcases hgeo with hgeo | hgeo
  · have hsub : ruleValuesWithGeoSub .euring2020 vals
        = aset vals ("geographical_coordinates".data) geoDots := by
      unfold ruleValuesWithGeoSub
      rw [if_pos]
      simp [hlatE, hgeo]
    rw [hsub]
    unfold recordRuleErrors
    rw [if_pos rfl]
    rw [valuesGet_aset_same]
    rw [valuesGet_aset_other _ _ _ _ (by decide), valuesGet_aset_other _ _ _ _ (by decide)]
    rw [hlng]
    simp only [hlatE, List.isEmpty_nil, Bool.not_false, Bool.not_true, Bool.true_or,
      Bool.true_and, Bool.and_false, Bool.false_and, Bool.or_false]
    rw [if_neg (by simp), if_pos (by simp), if_neg (by simp)]
    unfold mkRuleError
    rw [valuesGet_aset_other _ _ _ _ (by decide), hlng]
    simp
  · have hsub : ruleValuesWithGeoSub .euring2020 vals = vals := by
      unfold ruleValuesWithGeoSub
      rw [if_neg]
      simp [hgeo, geoDots]
    rw [hsub]
    unfold recordRuleErrors
    rw [if_pos rfl]
    rw [hlng, hgeo]
    simp only [hlatE, List.isEmpty_nil, Bool.not_false, Bool.not_true, Bool.true_or,
      Bool.true_and, Bool.and_false, Bool.false_and, Bool.or_false]
    rw [if_neg (by simp), if_pos (by simp), if_neg (by simp)]
    unfold mkRuleError
    rw [hlng]
    simp

/-- Witness for C5: a two-entry record with latitude `52.0` and empty
longitude. -/
theorem euring2020_lat_without_lng_single_error_witness :
    recordRuleErrors .euring2020
        (ruleValuesWithGeoSub .euring2020 [("latitude".data, "52.0".data)])
      = [⟨"longitude".data, "Longitude is required when Latitude is provided.".data, []⟩] :=
  euring2020_lat_without_lng_single_error [("latitude".data, "52.0".data)]
    (by decide) (by decide) (Or.inl (by decide))

/-! ## C6: alphabetic accuracy outside EURING2020 -/

/-- C6: under EURING2000 or EURING2000+, a non-empty alphabetic
`accuracy_of_coordinates` value always produces a rule error on that
field. -/
theorem alpha_accuracy_rejected_outside_2020 (format : EuringFormat)
    (vals : List (Str × Str))
    (hfmt : format = .euring2000 ∨ format = .euring2000plus)
    (hacc : pyIsAlpha (valuesGet vals ("accuracy_of_coordinates".data)) = true) :
    mkRuleError vals ("accuracy_of_coordinates".data)
        ("Alphabetic accuracy codes are only valid in EURING2020.".data)
      ∈ recordRuleErrors format vals := by
  have hne : format ≠ .euring2020 := by
    rcases hfmt with h | h <;> simp [h]
  unfold recordRuleErrors
  rw [if_neg hne]
  have halpha : accuracyOfCoordinatesIsAlpha vals = true := hacc
  rw [halpha]
  simp

/-- Witness for C6 at a concrete record with accuracy `A`. -/
theorem alpha_accuracy_rejected_outside_2020_witness :
    mkRuleError [("accuracy_of_coordinates".data, ['A'])] ("accuracy_of_coordinates".data)
        ("Alphabetic accuracy codes are only valid in EURING2020.".data)
      ∈ recordRuleErrors .euring2000plus [("accuracy_of_coordinates".data, ['A'])] :=
  alpha_accuracy_rejected_outside_2020 .euring2000plus
    [("accuracy_of_coordinates".data, ['A'])] (Or.inr rfl) (by decide)

/-! ## C2: format detection -/

/-- C2: `euring_detect_format` — no pipe means EURING2000; more than 60
tokens means EURING2020; an alphabetic accuracy token means EURING2020;
otherwise EURING2000+. -/
theorem detectFormat_spec (s : Str) :
    ('|' ∉ s → euringDetectFormat s = .euring2000) ∧
    ('|' ∈ s → 60 < (pySplit '|' s).length → euringDetectFormat s = .euring2020) ∧
    ('|' ∈ s → (pySplit '|' s).length ≤ 60 →
      pyIsAlpha (euringValueFromList (pySplit '|' s) ("accuracy_of_coordinates".data)) = true →
      euringDetectFormat s = .euring2020) ∧
    ('|' ∈ s → (pySplit '|' s).length ≤ 60 →
      pyIsAlpha (euringValueFromList (pySplit '|' s) ("accuracy_of_coordinates".data)) = false →
      euringDetectFormat s = .euring2000plus) := by
  have hlen : euring2000plusFields.length = 60 := by decide
  refine ⟨?_, ?_, ?_, ?_⟩
  · intro h
    unfold euringDetectFormat
    rw [if_neg h]
  · intro h hcount
    unfold euringDetectFormat
    rw [if_pos h, hlen, if_pos hcount]
  · intro h hcount halpha
    unfold euringDetectFormat
    rw [if_pos h, hlen, if_neg (by omega), halpha, if_pos rfl]
  · intro h hcount halpha
    unfold euringDetectFormat
    rw [if_pos h, hlen, if_neg (by omega), halpha]
    simp

/-- Witness for C2: all four detection branches at concrete inputs. -/
theorem detectFormat_spec_witness :
    euringDetectFormat ("abc".data) = .euring2000 ∧
    euringDetectFormat exampleRecord2020A = .euring2020 ∧
    euringDetectFormat ("a|b|c|d|e|f|g|h|i|j|k|l|m|n|o|p|q|r|s|t|u|v|w|x|y|A".data)
      = .euring2020 ∧
    euringDetectFormat exampleRecord33 = .euring2000plus :=
  ⟨(detectFormat_spec ("abc".data)).1 (by decide),
   (detectFormat_spec exampleRecord2020A).2.1 (by decide) (by decide),
   (detectFormat_spec ("a|b|c|d|e|f|g|h|i|j|k|l|m|n|o|p|q|r|s|t|u|v|w|x|y|A".data)).2.2.1
     (by decide) (by decide) (by decide),
   (detectFormat_spec exampleRecord33).2.2.2 (by decide) (by decide) (by decide)⟩

/-! ## C3: alphabetic accuracy downgrade -/

/-- C3 counterexample: `"a"` is an alphabetic accuracy code that is not in
the claim's table `{A..G, H, I, J, K, L, M, Z}`, yet converting with force
does not raise — the code is upper-cased and mapped to `"0"`. -/
theorem alphaAccuracy_lowercase_counterexample :
    pyIsAlpha ['a'] = true ∧
    (['a'] ∈ alphaAccuracyTable.map Prod.fst → False) ∧
    applyCoordinateDowngrade [("accuracy_of_coordinates".data, ['a'])] .euring2000plus true
      = .ok [("accuracy_of_coordinates".data, ['0'])] := by
  refine ⟨by decide, by decide, by rfl⟩

/-- C3 (amended): under force, the downgrade maps an alphabetic accuracy
code through the fixed table after upper-casing (so the output accuracy
field holds the mapped digit whenever the conversion succeeds), any
alphabetic code whose upper-case form is outside the table raises even
under force, and converting the example EURING2020 record with accuracy
`A` to EURING2000+ with force yields `0` in the accuracy field. -/
theorem alphaAccuracy_downgrade_amended :
    (∀ (vals : List (Str × Str)) (target : EuringFormat),
      (target = .euring2000 ∨ target = .euring2000plus) →
      pyIsAlpha (valuesGet vals ("accuracy_of_coordinates".data)) = true →
      ((mapAlphaAccuracyToNumeric (valuesGet vals ("accuracy_of_coordinates".data)) = none →
        applyCoordinateDowngrade vals target true
          = .error ("Unsupported alphabetic accuracy code ".data
              ++ valuesGet vals ("accuracy_of_coordinates".data) ++ ".".data)) ∧
       (∀ m out,
        mapAlphaAccuracyToNumeric (valuesGet vals ("accuracy_of_coordinates".data)) = some m →
        applyCoordinateDowngrade vals target true = .ok out →
        valuesGet out ("accuracy_of_coordinates".data) = m))) ∧
    convertRecordString exampleRecord2020A none .euring2000plus true
      = .ok exampleConverted2000plus ∧
    ((pySplit '|' exampleConverted2000plus).drop 25).headD [] = ['0'] := by
  refine ⟨?_, by decide, by decide⟩
  intro vals target htarget hacc
  have htc : (target ≠ EuringFormat.euring2000 && target ≠ EuringFormat.euring2000plus) = false := by
    rcases htarget with h | h <;> simp [h]
  constructor
  · intro hnone
    unfold applyCoordinateDowngrade
    rw [htc]
    simp only [Bool.false_eq_true, if_false]
    rw [hacc, hnone]
    simp
  · intro m out hm hout
    unfold applyCoordinateDowngrade at hout
    rw [htc] at hout
    simp only [Bool.false_eq_true, if_false] at hout
    rw [hacc, hm] at hout
    simp only [Bool.not_true, Bool.false_eq_true, if_false, if_true] at hout
    set vals2 := aset vals ("accuracy_of_coordinates".data) m with hvals2
    have hv2 : valuesGet vals2 ("accuracy_of_coordinates".data) = m :=
      valuesGet_aset_same vals _ m
    by_cases hcoords : (pyStrip (valuesGet vals2 ("geographical_coordinates".data))).isEmpty
    · rw [hcoords] at hout
      simp only [Bool.not_true, Bool.false_eq_true, if_false] at hout
      by_cases hll : ((valuesGet vals2 ("latitude".data)).isEmpty
          || (valuesGet vals2 ("longitude".data)).isEmpty)
      · rw [hll] at hout
        simp only [if_true] at hout
        injection hout with h2
        rw [← h2]
        exact hv2
      · rw [Bool.not_eq_true] at hll
        rw [hll] at hout
        simp only [Bool.false_eq_true, if_false] at hout
        cases hf1 : pyFloat (valuesGet vals2 ("latitude".data)) with
        | none =>
          rw [hf1] at hout
          cases hf2 : pyFloat (valuesGet vals2 ("longitude".data)) with
          | none => rw [hf2] at hout; cases hout
          | some lo => rw [hf2] at hout; cases hout
        | some la =>
          rw [hf1] at hout
          cases hf2 : pyFloat (valuesGet vals2 ("longitude".data)) with
          | none => rw [hf2] at hout; cases hout
          | some lo =>
            rw [hf2] at hout
            injection hout with h2
            rw [← h2]
            rw [valuesGet_aset_other _ _ _ _ (by decide)]
            exact hv2
    · rw [Bool.not_eq_true] at hcoords
      rw [hcoords] at hout
      simp only [Bool.not_false, if_true] at hout
      injection hout with h2
      rw [← h2]
      exact hv2

/-- Witness for C3 (amended): the unmapped alphabetic code `N` raises even
under force. -/
theorem alphaAccuracy_downgrade_amended_witness :
    applyCoordinateDowngrade [("accuracy_of_coordinates".data, ['N'])] .euring2000plus true
      = .error ("Unsupported alphabetic accuracy code ".data ++ ['N'] ++ ".".data) := by
  have h := (alphaAccuracy_downgrade_amended.1 [("accuracy_of_coordinates".data, ['N'])]
    .euring2000plus (Or.inr rfl) (by decide)).1 (by decide)
  simpa using h

/-! ## C4: the loss guard lists every reason -/

/-- C4: for every source format (fixed-width EURING2000 included), when the
source record splits successfully, the conversion to EURING2000/2000+ would
lose data, and `force` is not set, `convert` raises the single loss error
whose message is built from the sorted de-duplicated list of all loss
reasons, and that list contains exactly the reasons found (every one of
them, not just the first). -/
theorem convert_loss_reasons_all_listed (value : Str) (src target : EuringFormat)
    (toks : List Str) (flds : List FieldDef)
    (hsplit : convertSplit value src = .ok (toks, flds))
    (hloss : lossReasons (mapFieldsToValues flds toks) target ≠ []) :
    convertRecordData value (some src) target false
      = .error (lossMessage (lossReasons (mapFieldsToValues flds toks) target)) ∧
    ∀ r, (r ∈ lossReasons (mapFieldsToValues flds toks) target ↔
      r ∈ ((lossReasons (mapFieldsToValues flds toks) target).dedup.mergeSort strLe)) := by
  constructor
  · have hsome : requireForceOnLoss (mapFieldsToValues flds toks) target false
        = some (lossMessage (lossReasons (mapFieldsToValues flds toks) target)) := by
      unfold requireForceOnLoss
      rw [if_pos]
      simp only [Bool.not_false, Bool.and_true]
      cases hl : lossReasons (mapFieldsToValues flds toks) target
      · exact absurd hl hloss
      · simp
    simp only [convertRecordData, normalizeSourceFormat, hsplit, hsome]
  · intro r
    simp [List.mem_mergeSort, List.mem_dedup]

/-- Witness for C4: converting a fixed-width EURING2000 record carrying the
alphabetic accuracy code `A` to EURING2000+ without force raises the loss
message. -/
theorem convert_loss_reasons_all_listed_witness :
    convertRecordData exampleRecord2000A (some .euring2000) .euring2000plus false
      = .error (lossMessage (lossReasons
          (mapFieldsToValues fixedWidthFields
            (splitFixedChunksGo fixedWidthFields exampleRecord2000A 0))
          .euring2000plus)) :=
  (convert_loss_reasons_all_listed exampleRecord2000A .euring2000 .euring2000plus
    (splitFixedChunksGo fixedWidthFields exampleRecord2000A 0) fixedWidthFields
    (by with_unfolding_all decide) (by with_unfolding_all decide)).1

/-! ## Round-trip helper lemmas: splitting and joining -/

/-- `joinSep` on two or more parts. -/
theorem joinSep_cons_cons (sep : Char) (a b : Str) (l : List Str) :
    joinSep sep (a :: b :: l) = a ++ sep :: joinSep sep (b :: l) := rfl

/-- The splitter never returns an empty part list. -/
theorem pySplitGo_ne_nil (sep : Char) (s : Str) : ∀ acc, pySplitGo sep s acc ≠ [] := by
  induction s with
  | nil => intro acc; simp [pySplitGo]
  | cons c rest ih =>
    intro acc
    unfold pySplitGo
    by_cases h : c = sep
    · simp [h]
    · simp only [if_neg h]
      exact ih (c :: acc)

/-- Joining the split of `s` (with accumulator) restores the text. -/
theorem joinSep_pySplitGo (sep : Char) (s : Str) :
    ∀ acc, joinSep sep (pySplitGo sep s acc) = acc.reverse ++ s := by
  induction s with
  | nil => intro acc; simp [pySplitGo, joinSep]
  | cons c rest ih =>
    intro acc
    unfold pySplitGo
    by_cases h : c = sep
    · rw [if_pos h]
      cases hps : pySplitGo sep rest [] with
      | nil => exact absurd hps (pySplitGo_ne_nil sep rest [])
      | cons x xs =>
        rw [joinSep_cons_cons, ← hps, ih []]
        simp [h]
    · rw [if_neg h, ih (c :: acc)]
      simp

/-- Python `sep.join(s.split(sep)) == s`. -/
theorem joinSep_pySplit (sep : Char) (s : Str) : joinSep sep (pySplit sep s) = s := by
  unfold pySplit
  rw [joinSep_pySplitGo]
  rfl

/-- Splitting text free of the separator yields a single part. -/
theorem pySplitGo_no_sep (sep : Char) (s : Str) (h : sep ∉ s) :
    ∀ acc, pySplitGo sep s acc = [acc.reverse ++ s] := by
  induction s with
  | nil => intro acc; simp [pySplitGo]
  | cons c rest ih =>
    intro acc
    unfold pySplitGo
    rw [if_neg (fun hc => h (by rw [← hc]; exact List.mem_cons_self c rest))]
    rw [ih (fun hm => h (List.mem_cons_of_mem c hm)) (c :: acc)]
    simp

/-- `s.split(sep) == [s]` when `sep` does not occur. -/
theorem pySplit_no_sep (sep : Char) (s : Str) (h : sep ∉ s) : pySplit sep s = [s] := by
  unfold pySplit
  rw [pySplitGo_no_sep sep s h []]
  rfl

/-! ## Round-trip helper lemmas: zips and keyed lookups -/

/-- Zipping truncates the longer left list. -/
theorem zip_truncate {α β : Type} :
    ∀ (l1 : List α) (l2 : List β), l1.zip l2 = (l1.take l2.length).zip l2 := by
  intro l1
  induction l1 with
  | nil => intro l2; simp
  | cons a as ih =>
    intro l2
    cases l2 with
    | nil => simp
    | cons b bs => simp [ih bs]

/-- Every left element of an equal-length zip has a partner. -/
theorem mem_zip_of_mem_left {α β : Type} :
    ∀ (l1 : List α) (l2 : List β), l1.length = l2.length →
      ∀ {a : α}, a ∈ l1 → ∃ b, (a, b) ∈ l1.zip l2 := by
  intro l1
  induction l1 with
  | nil => intro l2 _ a ha; cases ha
  | cons x xs ih =>
    intro l2 hlen a ha
    cases l2 with
    | nil => cases hlen
    | cons y ys =>
      rcases List.mem_cons.mp ha with h | h
      · exact ⟨y, by simp [h]⟩
      · obtain ⟨b, hb⟩ := ih ys (by simpa using hlen) h
        exact ⟨b, List.mem_cons_of_mem _ hb⟩

/-- A map over the left components of a zip that agrees pointwise with the
right components reproduces the right list. -/
theorem map_eq_of_zip_pointwise {α β : Type} (g : α → β) :
    ∀ (l1 : List α) (l2 : List β), l1.length = l2.length →
      (∀ p ∈ l1.zip l2, g p.1 = p.2) → l1.map g = l2 := by
  intro l1
  induction l1 with
  | nil =>
    intro l2 hlen _
    cases l2 with
    | nil => rfl
    | cons b bs => cases hlen
  | cons a as ih =>
    intro l2 hlen h
    cases l2 with
    | nil => cases hlen
    | cons b bs =>
      have h1 := h (a, b) (by simp)
      rw [List.map_cons, h1, ih bs (by simpa using hlen)
        (fun p hp => h p (List.mem_cons_of_mem _ hp))]

/-- Looking a field's key up in a keyed map of distinct-key pairs yields the
value built from that pair. -/
theorem alookup_keyed {β : Type} (h : FieldDef × Str → β) :
    ∀ (ps : List (FieldDef × Str)), (ps.map (fun p => p.1.key)).Nodup →
      ∀ {f : FieldDef} {t : Str}, (f, t) ∈ ps →
      alookup (ps.map (fun p => (p.1.key, h p))) f.key = some (h (f, t)) := by
  intro ps
  induction ps with
  | nil => intro _ f t hmem; cases hmem
  | cons q rest ih =>
    intro hnodup f t hmem
    rw [List.map_cons] at hnodup
    have hnd := List.nodup_cons.mp hnodup
    rw [List.map_cons]
    unfold alookup
    by_cases hk : q.1.key = f.key
    · rw [if_pos hk]
      rcases List.mem_cons.mp hmem with heq | hmem2
      · rw [← heq]
      · exfalso
        have : f.key ∈ rest.map (fun p => p.1.key) :=
          List.mem_map.mpr ⟨(f, t), hmem2, rfl⟩
        exact hnd.1 (hk ▸ this)
    · rw [if_neg hk]
      rcases List.mem_cons.mp hmem with heq | hmem2
      · exact absurd (by rw [← heq]) hk
      · exact ih hnd.2 hmem2

/-- Special case: looking up a field's key in a per-field keyed map. -/
theorem alookup_fieldmap {β : Type} (g : FieldDef → β) :
    ∀ (flds : List FieldDef), (flds.map (fun f => f.key)).Nodup →
      ∀ {f : FieldDef}, f ∈ flds →
      alookup (flds.map (fun f2 => (f2.key, g f2))) f.key = some (g f) := by
  intro flds
  induction flds with
  | nil => intro _ f hmem; cases hmem
  | cons q rest ih =>
    intro hnodup f hmem
    rw [List.map_cons] at hnodup
    have hnd := List.nodup_cons.mp hnodup
    rw [List.map_cons]
    unfold alookup
    by_cases hk : q.key = f.key
    · rw [if_pos hk]
      rcases List.mem_cons.mp hmem with heq | hmem2
      · rw [heq]
      · exfalso
        have : f.key ∈ rest.map (fun f2 => f2.key) := List.mem_map.mpr ⟨f, hmem2, rfl⟩
        exact hnd.1 (hk ▸ this)
    · rw [if_neg hk]
      rcases List.mem_cons.mp hmem with heq | hmem2
      · exact absurd (by rw [heq]) hk
      · exact ih hnd.2 hmem2

/-- Lookup distributes over a value-transforming map. -/
theorem alookup_map_keyed {β γ : Type} (g : Str → β → γ) :
    ∀ (l : List (Str × β)) (k : Str),
      alookup (l.map (fun p => (p.1, g p.1 p.2))) k = (alookup l k).map (g k) := by
  intro l
  induction l with
  | nil => intro k; rfl
  | cons p rest ih =>
    intro k
    rw [List.map_cons]
    unfold alookup
    by_cases hk : p.1 = k
    · rw [if_pos hk, if_pos hk, hk]
      rfl
    · rw [if_neg hk, if_neg hk, ih k]

/-- A successful lookup is a membership. -/
theorem alookup_mem {β : Type} :
    ∀ (l : List (Str × β)) (k : Str) (v : β), alookup l k = some v → (k, v) ∈ l := by
  intro l
  induction l with
  | nil => intro k v h; cases h
  | cons p rest ih =>
    intro k v h
    unfold alookup at h
    by_cases hk : p.1 = k
    · rw [if_pos hk] at h
      injection h with h2
      rw [← hk, ← h2]
      exact List.mem_cons_self p rest
    · rw [if_neg hk] at h
      exact List.mem_cons_of_mem _ (ih k v h)

/-- `find?` by key returns the member itself when keys are distinct. -/
theorem find?_key_self :
    ∀ (flds : List FieldDef), (flds.map (fun f => f.key)).Nodup →
      ∀ {f : FieldDef}, f ∈ flds →
      flds.find? (fun f2 => f2.key = f.key) = some f := by
  intro flds
  induction flds with
  | nil => intro _ f hmem; cases hmem
  | cons q rest ih =>
    intro hnodup f hmem
    rw [List.map_cons] at hnodup
    have hnd := List.nodup_cons.mp hnodup
    by_cases hk : q.key = f.key
    · simp only [List.find?_cons, decide_eq_true hk]
      rcases List.mem_cons.mp hmem with heq | hmem2
      · rw [heq]
      · exfalso
        have : f.key ∈ rest.map (fun f2 => f2.key) := List.mem_map.mpr ⟨f, hmem2, rfl⟩
        exact hnd.1 (hk ▸ this)
    · simp only [List.find?_cons, decide_eq_false hk]
      rcases List.mem_cons.mp hmem with heq | hmem2
      · exact absurd (by rw [heq]) hk
      · exact ih hnd.2 hmem2

/-! ## Round-trip helper lemmas: slices, keys, and pipeline stages -/

/-- The keys of an equal-length field/token zip are the field keys. -/
theorem zip_keys_eq (flds : List FieldDef) (toks : List Str) (h : flds.length = toks.length) :
    (flds.zip toks).map (fun p => p.1.key) = flds.map (fun f => f.key) := by
  have h1 : (flds.zip toks).map Prod.fst = flds := List.map_fst_zip flds toks (le_of_eq h)
  calc (flds.zip toks).map (fun p => p.1.key)
      = ((flds.zip toks).map Prod.fst).map (fun f => f.key) := by rw [List.map_map]; rfl
    _ = flds.map (fun f => f.key) := by rw [h1]

/-- The canonical field keys are distinct. -/
theorem euringFields_keys_nodup : (euringFields.map (fun f => f.key)).Nodup := by
  with_unfolding_all decide

/-- The keys of any canonical prefix are distinct. -/
theorem take_keys_nodup (n : Nat) : ((euringFields.take n).map (fun f => f.key)).Nodup := by
  rw [List.map_take]
  exact List.Nodup.sublist (List.take_sublist n _) euringFields_keys_nodup

/-- The fixed-width field walk stops exactly at the 33 EURING2000 fields. -/
theorem fixedWidthFields_eq : fixedWidthFields = euringFields.take 33 := by
  with_unfolding_all decide

/-- The fixed-width field widths total 94 characters. -/
theorem fixedWidthFields_sum :
    ((fixedWidthFields.map (fun f => f.length.getD 0)).sum) = 94 := by
  with_unfolding_all decide

/-- The fixed-width slicer pairs each field with its token. -/
theorem sliceFixedGo_eq (v : Str) :
    ∀ (flds : List FieldDef) (start : Nat),
      sliceFixedGo flds v start =
        (flds.zip (sliceTokens flds v start)).map (fun p => (p.1.key, p.2)) := by
  intro flds
  induction flds with
  | nil => intro start; rfl
  | cons f rest ih =>
    intro start
    simp only [sliceFixedGo, sliceTokens, List.zip_cons_cons, List.map_cons, ih]

/-- The fixed-width slicer yields one token per field. -/
theorem sliceTokens_length (v : Str) :
    ∀ (flds : List FieldDef) (start : Nat),
      (sliceTokens flds v start).length = flds.length := by
  intro flds
  induction flds with
  | nil => intro start; rfl
  | cons f rest ih => intro start; simp [sliceTokens, ih]

/-- Concatenating the fixed-width slices recovers the sliced span. -/
theorem flatten_sliceTokens (v : Str) :
    ∀ (flds : List FieldDef) (start : Nat),
      (sliceTokens flds v start).flatten =
        (v.drop start).take ((flds.map (fun f => f.length.getD 0)).sum) := by
  intro flds
  induction flds with
  | nil => intro start; simp [sliceTokens]
  | cons f rest ih =>
    intro start
    simp only [sliceTokens, List.flatten_cons, List.map_cons, List.sum_cons, ih]
    rw [List.take_add]
    congr 1
    rw [List.drop_drop]

/-- `record._validate_fields` reports no error when every field's validation
body succeeds. -/
theorem validateFieldsErrors_nil (format : EuringFormat) (slots : Slots)
    (h : ∀ f ∈ fieldsForFormat format,
      ∃ v, validateFieldSlot format (needsGeoDotsFor format slots) f
          (slotValueOrEmptyStr slots f.key) = .ok v) :
    validateFieldsErrors format slots = [] := by
  simp only [validateFieldsErrors, List.filterMap_eq_nil_iff]
  intro p hp
  obtain ⟨i, f⟩ := p
  have hf : f ∈ fieldsForFormat format := List.get?_mem (List.mk_mem_enum_iff_get?.mp hp)
  obtain ⟨v, hv⟩ := h f hf
  simp only [hv]

/-- `record._serialize`'s token walk succeeds with the per-field tokens when
every field serializes. -/
theorem serializeTokensGo_ok (format : EuringFormat) (gps : Bool) (slots : Slots) :
    ∀ (fl : List FieldDef),
      (∀ f ∈ fl, ∃ s, serializeToken format gps f (slotValueOrNone slots f.key) = .ok s) →
      serializeTokensGo format gps slots fl =
        .ok (fl.map (fun f => (f.key, tokOf format gps slots f))) := by
  intro fl
  induction fl with
  | nil => intro _; rfl
  | cons f rest ih =>
    intro h
    obtain ⟨s, hs⟩ := h f (List.mem_cons_self f rest)
    have hr := ih (fun g hg => h g (List.mem_cons_of_mem f hg))
    simp only [serializeTokensGo, hs, hr, List.map_cons]
    unfold tokOf
    rw [hs]

/-- The validation write-back never touches a slot's raw wire text. -/
theorem vSlot_raw (format : EuringFormat) (ngd : Bool) (k : Str) (sl : Slot) :
    (vSlot format ngd k sl).raw = sl.raw := by
  unfold vSlot
  cases h : (fieldsForFormat format).find? (fun f => f.key = k) with
  | none => rfl
  | some f =>
    cases h2 : validateFieldSlot format ngd f sl.value with
    | error e => simp only [h2]
    | ok parsed => simp only [h2]

/-- The validation write-back stores the parsed value of a field that
validates. -/
theorem vSlot_value (format : EuringFormat) (ngd : Bool) (f : FieldDef) (r : Option Str)
    (v : PyVal) (hfind : (fieldsForFormat format).find? (fun f2 => f2.key = f.key) = some f)
    {parsed : Option PyVal}
    (hok : validateFieldSlot format ngd f v = .ok parsed) :
    vSlot format ngd f.key ⟨r, v⟩ = ⟨r, parsedVal parsed⟩ := by
  unfold vSlot
  simp only [hfind, hok]

/-- The rule-value assembly depends only on the raw wire text of the slots. -/
theorem ruleValuesByKey_congr (format : EuringFormat) (slots slots2 : Slots)
    (h : ∀ f ∈ fieldsForFormat format,
      ∃ r, (∃ sl, alookup slots f.key = some sl ∧ sl.raw = some r)
        ∧ (∃ sl, alookup slots2 f.key = some sl ∧ sl.raw = some r)) :
    ruleValuesByKey format slots = ruleValuesByKey format slots2 := by
  unfold ruleValuesByKey
  apply List.map_congr_left
  intro f hf
  obtain ⟨r, ⟨sl1, hl1, hr1⟩, ⟨sl2, hl2, hr2⟩⟩ := h f hf
  simp only [hl1, hl2, hr1, hr2]

/-- `values_by_key.get` on a per-field keyed map of distinct-key fields. -/
theorem valuesGet_fieldmap {g : FieldDef → Str}
    {flds : List FieldDef} (hnd : (flds.map (fun f => f.key)).Nodup)
    {f : FieldDef} (hf : f ∈ flds) :
    valuesGet (flds.map (fun f2 => (f2.key, g f2))) f.key = g f := by
  unfold valuesGet
  rw [alookup_fieldmap g flds hnd hf]

/-- The fixed-point token predicate, spelt out over the zipped fields. -/
theorem roundTripTokensFixed_eq (format : EuringFormat) (value : Str) :
    roundTripTokensFixed format value =
      (((if format = .euring2000 then fixedWidthFields else fieldsForFormat format).zip
          (wireTokens format value)).all (fun p =>
        finalTokenFor format (rtNgd1 format value) (rtNgd2 format value)
          (rtGps format value) p.1 p.2 == some p.2)) := rfl

/-- Unpacking a fixed-point token: both validation passes succeed and the
final serialization reproduces the token. -/
theorem finalTokenFor_unpack (format : EuringFormat) (ngd1 ngd2 gps : Bool) (f : FieldDef)
    (t : Str) (h : finalTokenFor format ngd1 ngd2 gps f t = some t) :
    ∃ q1, validateFieldSlot format ngd1 f (.pstr t) = .ok q1 ∧
      ∃ q2, validateFieldSlot format ngd2 f (parsedVal q1) = .ok q2 ∧
        ∃ s, serializeToken format gps f (parsedVal q2) = .ok s ∧
          (if format = .euring2000 then fixedWidthPad (f.length.getD 0) s else s) = t := by
  unfold finalTokenFor fieldTokenReencode at h
  cases h1 : validateFieldSlot format ngd1 f (.pstr t) with
  | error e =>
    simp only [h1] at h
    exact Option.noConfusion h
  | ok q1 =>
    simp only [h1] at h
    cases h2 : validateFieldSlot format ngd2 f (parsedVal q1) with
    | error e =>
      simp only [h2] at h
      exact Option.noConfusion h
    | ok q2 =>
      simp only [h2] at h
      cases h3 : serializeToken format gps f (parsedVal q2) with
      | error e =>
        simp only [h3] at h
        exact Option.noConfusion h
      | ok s =>
        simp only [h3] at h
        injection h with h4
        exact ⟨q1, rfl, q2, h2, s, h3, h4⟩

/-- `record._decode_raw_record` on a piped record with a matching non-2000
hint: the tokens are mapped positionally onto the canonical keys with no
structural error. -/
theorem decodeRaw_pipe (format : EuringFormat) (value : Str)
    (hfmt : format ≠ .euring2000)
    (hlen : 2 ≤ (pySplit '|' value).length) :
    decodeRawRecord value (some format) =
      ⟨format, (euringFields.zip (pySplit '|' value)).map (fun p => (p.1.key, p.2)), []⟩ := by
  simp only [decodeRawRecord]
  rw [if_neg (by omega)]
  rw [if_neg (fun hc : some format = some EuringFormat.euring2000 =>
    hfmt (Option.some.inj hc))]
  simp only [Option.getD_some, Option.isNone_some, Bool.false_and, Bool.false_eq_true,
    if_false]

/-- `record._decode_raw_record` on a pipe-free 94-character record with the
EURING2000 hint: the fixed-width slices with no structural error. -/
theorem decodeRaw_fixed (value : Str) (hsep : '|' ∉ value) (hlen : value.length = 94) :
    decodeRawRecord value (some .euring2000) =
      ⟨.euring2000, sliceFixedGo fixedWidthFields value 0, []⟩ := by
  have hsplit : pySplit '|' value = [value] := pySplit_no_sep '|' value hsep
  have hdrop : value.drop ((fixedWidthFields.map (fun f => f.length.getD 0)).sum) = [] := by
    apply List.drop_eq_nil_of_le
    rw [hlen, fixedWidthFields_sum]
  simp only [decodeRawRecord, hsplit]
  rw [if_pos (by simp)]
  rw [hdrop]
  simp only [ne_eq, not_true_eq_false, if_false]
  rw [if_pos (show (pyStrip ([] : Str)).isEmpty = true from rfl)]
  rfl

/-- The decode-then-serialize chain on a record whose raw decode has the
positional zip shape, whose decode reports no error, and whose every token
is a fixed point of the contextual per-field re-encoding: serialization is
reached, every field serializes, and each serialized token reproduces the
wire token. -/
theorem roundTrip_chain (format : EuringFormat) (value : Str) (toks : List Str)
    (flds : List FieldDef)
    (hflds : fieldsForFormat format = flds)
    (hwire : wireTokens format value = toks)
    (hfldsm : (if format = .euring2000 then fixedWidthFields else fieldsForFormat format) = flds)
    (hdec : decodeRawRecord value (some format) =
      ⟨format, (flds.zip toks).map (fun p => (p.1.key, p.2)), []⟩)
    (hlen : flds.length = toks.length)
    (hnodup : (flds.map (fun f => f.key)).Nodup)
    (hvalid : decodeIsValid value (some format) = true)
    (hfix : roundTripTokensFixed format value = true) :
    decodeThenSerialize value (some format) =
        serializeRecordText format (rtSlots3 format value) ∧
      serializeTokens format (rtSlots3 format value) =
        .ok (flds.map (fun f =>
          (f.key, tokOf format (rtGps format value) (rtSlots3 format value) f))) ∧
      ∀ p ∈ flds.zip toks,
        (if format = .euring2000
          then fixedWidthPad (p.1.length.getD 0)
            (tokOf format (rtGps format value) (rtSlots3 format value) p.1)
          else tokOf format (rtGps format value) (rtSlots3 format value) p.1) = p.2 := by
  have hslots1 : rtSlots1 format value =
      (flds.zip toks).map (fun p => (p.1.key, (⟨some p.2, .pstr p.2⟩ : Slot))) := by
    unfold rtSlots1 decodeSlots
    rw [hdec, List.map_map]
    rfl
  have hslots2 : rtSlots2 format value =
      (rtSlots1 format value).map (fun p => (p.1, vSlot format (rtNgd1 format value) p.1 p.2)) :=
    rfl
  have hslots3 : rtSlots3 format value =
      (rtSlots2 format value).map (fun p => (p.1, vSlot format (rtNgd2 format value) p.1 p.2)) :=
    rfl
  have hkeys : ((flds.zip toks).map (fun p => p.1.key)) = flds.map (fun f => f.key) :=
    zip_keys_eq flds toks hlen
  have hndps : ((flds.zip toks).map (fun p => p.1.key)).Nodup := by
    rw [hkeys]
    exact hnodup
  have hfixp : ∀ p ∈ flds.zip toks,
      finalTokenFor format (rtNgd1 format value) (rtNgd2 format value) (rtGps format value)
        p.1 p.2 = some p.2 := by
    rw [roundTripTokensFixed_eq, hfldsm, hwire] at hfix
    intro p hp
    have h0 := List.all_eq_true.mp hfix p hp
    simpa using h0
  have hfield : ∀ p ∈ flds.zip toks, ∃ q1 q2 s,
      validateFieldSlot format (rtNgd1 format value) p.1 (.pstr p.2) = .ok q1 ∧
      validateFieldSlot format (rtNgd2 format value) p.1 (parsedVal q1) = .ok q2 ∧
      serializeToken format (rtGps format value) p.1 (parsedVal q2) = .ok s ∧
      (if format = .euring2000 then fixedWidthPad (p.1.length.getD 0) s else s) = p.2 ∧
      alookup (rtSlots2 format value) p.1.key = some ⟨some p.2, parsedVal q1⟩ ∧
      alookup (rtSlots3 format value) p.1.key = some ⟨some p.2, parsedVal q2⟩ := by
    intro p hp
    obtain ⟨f, t⟩ := p
    obtain ⟨q1, h1, q2, h2, s, h3, h4⟩ :=
      finalTokenFor_unpack format (rtNgd1 format value) (rtNgd2 format value)
        (rtGps format value) f t (hfixp (f, t) hp)
    have hfmem : f ∈ flds := (List.of_mem_zip hp).1
    have hfind : (fieldsForFormat format).find? (fun f2 => f2.key = f.key) = some f := by
      rw [hflds]
      exact find?_key_self flds hnodup hfmem
    have ha1 : alookup (rtSlots1 format value) f.key = some ⟨some t, .pstr t⟩ := by
      rw [hslots1]
      exact alookup_keyed (fun p => (⟨some p.2, .pstr p.2⟩ : Slot)) (flds.zip toks) hndps hp
    have ha2 : alookup (rtSlots2 format value) f.key = some ⟨some t, parsedVal q1⟩ := by
      rw [hslots2, alookup_map_keyed (fun k sl => vSlot format (rtNgd1 format value) k sl)
        (rtSlots1 format value) f.key, ha1]
      simp only [Option.map_some']
      rw [vSlot_value format (rtNgd1 format value) f (some t) (.pstr t) hfind h1]
    have ha3 : alookup (rtSlots3 format value) f.key = some ⟨some t, parsedVal q2⟩ := by
      rw [hslots3, alookup_map_keyed (fun k sl => vSlot format (rtNgd2 format value) k sl)
        (rtSlots2 format value) f.key, ha2]
      simp only [Option.map_some']
      rw [vSlot_value format (rtNgd2 format value) f (some t) (parsedVal q1) hfind h2]
    exact ⟨q1, q2, s, h1, h2, h3, h4, ha2, ha3⟩
  have h5 : decodeIsValid value (some format) =
      !(hasErrors (validateRecord format (rtSlots1 format value)).1) := by
    unfold decodeIsValid euringDecode rtSlots1
    rw [hdec]
    rfl
  have hnoerr : hasErrors (validateRecord format (rtSlots1 format value)).1 = false := by
    simpa using h5.symm.trans hvalid
  have hfe : (validateRecord format (rtSlots1 format value)).1.fields = [] := by
    have h7 := hnoerr
    unfold hasErrors at h7
    rcases Bool.or_eq_false_iff.mp h7 with ⟨h8, h9⟩
    simpa using h9
  have happ : validateFieldsErrors format (rtSlots1 format value) ++
      (recordRuleErrors format (ruleValuesWithGeoSub format
        (ruleValuesByKey format (rtSlots2 format value)))).map
        (fun e => recordErrorForKey e.key e.message e.value) = [] := hfe
  have hrules1 : recordRuleErrors format (ruleValuesWithGeoSub format
      (ruleValuesByKey format (rtSlots2 format value))) = [] :=
    List.map_eq_nil_iff.mp (List.append_eq_nil.mp happ).2
  have hferrs2 : validateFieldsErrors format (rtSlots2 format value) = [] := by
    apply validateFieldsErrors_nil
    intro f hf
    rw [hflds] at hf
    obtain ⟨t, hp⟩ := mem_zip_of_mem_left flds toks hlen hf
    obtain ⟨q1, q2, s, h1, h2, h3, h4, ha2, ha3⟩ := hfield (f, t) hp
    refine ⟨q2, ?_⟩
    have hsv : slotValueOrEmptyStr (rtSlots2 format value) f.key = parsedVal q1 := by
      simp only [slotValueOrEmptyStr, ha2]
    rw [hsv]
    exact h2
  have hr32 : ruleValuesByKey format (rtSlots3 format value) =
      ruleValuesByKey format (rtSlots2 format value) := by
    apply ruleValuesByKey_congr
    intro f hf
    rw [hflds] at hf
    obtain ⟨t, hp⟩ := mem_zip_of_mem_left flds toks hlen hf
    obtain ⟨q1, q2, s, h1, h2, h3, h4, ha2, ha3⟩ := hfield (f, t) hp
    exact ⟨t, ⟨⟨some t, parsedVal q2⟩, ha3, rfl⟩, ⟨⟨some t, parsedVal q1⟩, ha2, rfl⟩⟩
  have hrules2 : recordRuleErrors format (ruleValuesWithGeoSub format
      (ruleValuesByKey format (rtSlots3 format value))) = [] := by
    rw [hr32]
    exact hrules1
  have hE2 : (validateRecord format (rtSlots2 format value)).1 = ⟨[], []⟩ := by
    show (⟨[], validateFieldsErrors format (rtSlots2 format value) ++
      (recordRuleErrors format (ruleValuesWithGeoSub format
        (ruleValuesByKey format (rtSlots3 format value)))).map
        (fun e => recordErrorForKey e.key e.message e.value)⟩ : RecordErrors) = ⟨[], []⟩
    rw [hferrs2, hrules2]
    rfl
  have hred : decodeThenSerialize value (some format) =
      serializeAfterDecode format (rtSlots2 format value) := by
    unfold decodeThenSerialize euringDecode rtSlots2 rtSlots1
    rw [hdec]
  have hc1 : decodeThenSerialize value (some format) =
      serializeRecordText format (rtSlots3 format value) := by
    rw [hred]
    simp only [serializeAfterDecode]
    rw [hE2]
    rw [if_neg (by decide)]
    rfl
  have hser : ∀ f ∈ flds, ∃ s,
      serializeToken format (needsGeoDotsFor format (rtSlots3 format value)) f
        (slotValueOrNone (rtSlots3 format value) f.key) = .ok s := by
    intro f hf
    obtain ⟨t, hp⟩ := mem_zip_of_mem_left flds toks hlen hf
    obtain ⟨q1, q2, s, h1, h2, h3, h4, ha2, ha3⟩ := hfield (f, t) hp
    refine ⟨s, ?_⟩
    have hsv : slotValueOrNone (rtSlots3 format value) f.key = parsedVal q2 := by
      simp only [slotValueOrNone, ha3]
    rw [hsv]
    exact h3
  have hc2 : serializeTokens format (rtSlots3 format value) =
      .ok (flds.map (fun f =>
        (f.key, tokOf format (rtGps format value) (rtSlots3 format value) f))) := by
    unfold serializeTokens
    rw [hflds]
    exact serializeTokensGo_ok format (needsGeoDotsFor format (rtSlots3 format value))
      (rtSlots3 format value) flds hser
  refine ⟨hc1, hc2, ?_⟩
  intro p hp
  obtain ⟨f, t⟩ := p
  obtain ⟨q1, q2, s, h1, h2, h3, h4, ha2, ha3⟩ := hfield (f, t) hp
  have hsv : slotValueOrNone (rtSlots3 format value) f.key = parsedVal q2 := by
    simp only [slotValueOrNone, ha3]
  have htok : tokOf format (rtGps format value) (rtSlots3 format value) f = s := by
    unfold tokOf
    simp only [hsv, h3]
  rw [htok]
  exact h4

/-- Taking all 64 canonical fields is the identity. -/
theorem euringFields_take_64 : euringFields.take 64 = euringFields :=
  List.take_of_length_le (by with_unfolding_all decide)

/-- The round trip on a pipe format: a record with the canonical token count
whose decode validates cleanly and whose tokens are re-encoding fixed points
serializes back to itself. -/
theorem roundTrip_pipe (format : EuringFormat) (value : Str) (n : Nat)
    (hfmt : format ≠ .euring2000)
    (hflds : fieldsForFormat format = euringFields.take n)
    (hn : (pySplit '|' value).length = n)
    (hnle : n ≤ 64) (h2n : 2 ≤ n)
    (hvalid : decodeIsValid value (some format) = true)
    (hfix : roundTripTokensFixed format value = true) :
    decodeThenSerialize value (some format) = .ok value := by
  have hlen64 : euringFields.length = 64 := by with_unfolding_all decide
  have hlen : (euringFields.take n).length = (pySplit '|' value).length := by
    rw [List.length_take, hlen64, hn]
    exact Nat.min_eq_left hnle
  have hzip : euringFields.zip (pySplit '|' value) =
      (euringFields.take n).zip (pySplit '|' value) := by
    rw [zip_truncate euringFields (pySplit '|' value), hn]
  have hdec : decodeRawRecord value (some format) =
      ⟨format, ((euringFields.take n).zip (pySplit '|' value)).map (fun p => (p.1.key, p.2)),
        []⟩ := by
    rw [decodeRaw_pipe format value hfmt (by omega), hzip]
  obtain ⟨hc1, hc2, hc3⟩ := roundTrip_chain format value (pySplit '|' value)
    (euringFields.take n) hflds
    (by unfold wireTokens; rw [if_neg hfmt])
    (by rw [if_neg hfmt, hflds])
    hdec hlen (take_keys_nodup n) hvalid hfix
  rw [hc1]
  unfold serializeRecordText
  simp only [hc2]
  rw [if_neg hfmt, hflds]
  have hmap : (euringFields.take n).map (fun f =>
      valuesGet ((euringFields.take n).map (fun f2 =>
        (f2.key, tokOf format (rtGps format value) (rtSlots3 format value) f2))) f.key) =
      pySplit '|' value := by
    apply map_eq_of_zip_pointwise _ _ _ hlen
    intro p hp
    obtain ⟨f, t⟩ := p
    have hf : f ∈ euringFields.take n := (List.of_mem_zip hp).1
    rw [valuesGet_fieldmap (take_keys_nodup n) hf]
    have h9 := hc3 (f, t) hp
    rw [if_neg hfmt] at h9
    exact h9
  rw [hmap, joinSep_pySplit]

/-- C1: the spec's §8 round-trip property, amended. Decoding a wire record
of canonical shape (pipe-free 94 characters for EURING2000; exactly the
canonical token count for the pipe formats) that validates with no errors
and whose every wire token is a fixed point of the contextual per-field
re-encoding, then serializing, returns exactly the original text. The
unconditional claim for all structurally-valid records is refuted by
`roundTrip_counterexample`: serialization may normalize tokens. -/
theorem roundTrip_amended (format : EuringFormat) (value : Str)
    (hshape : canonicalShape format value = true)
    (hvalid : decodeIsValid value (some format) = true)
    (hfix : roundTripTokensFixed format value = true) :
    decodeThenSerialize value (some format) = .ok value := by
  cases format with
  | euring2000 =>
    simp only [canonicalShape, Bool.and_eq_true, Bool.not_eq_true',
      decide_eq_false_iff_not, decide_eq_true_eq] at hshape
    obtain ⟨hsep, hlen94⟩ := hshape
    have hdec := decodeRaw_fixed value hsep hlen94
    rw [sliceFixedGo_eq] at hdec
    have hflds : fieldsForFormat .euring2000 = fixedWidthFields := by
      show euring2000Fields = fixedWidthFields
      rw [fixedWidthFields_eq]
      rfl
    have hnodup : (fixedWidthFields.map (fun f => f.key)).Nodup := by
      rw [fixedWidthFields_eq]
      exact take_keys_nodup 33
    obtain ⟨hc1, hc2, hc3⟩ := roundTrip_chain .euring2000 value
      (sliceTokens fixedWidthFields value 0) fixedWidthFields hflds
      (by unfold wireTokens; rw [if_pos rfl])
      (by rw [if_pos rfl])
      hdec
      (sliceTokens_length value fixedWidthFields 0).symm
      hnodup hvalid hfix
    rw [hc1]
    unfold serializeRecordText
    simp only [hc2]
    rw [if_pos trivial]
    congr 1
    unfold formatFixedWidth
    have hmap : fixedWidthFields.map (fun f => fixedWidthPad (f.length.getD 0)
        (valuesGet (fixedWidthFields.map (fun f2 =>
          (f2.key, tokOf .euring2000 (rtGps .euring2000 value) (rtSlots3 .euring2000 value) f2)))
          f.key)) = sliceTokens fixedWidthFields value 0 := by
      apply map_eq_of_zip_pointwise _ _ _ (sliceTokens_length value fixedWidthFields 0).symm
      intro p hp
      obtain ⟨f, t⟩ := p
      have hf : f ∈ fixedWidthFields := (List.of_mem_zip hp).1
      rw [valuesGet_fieldmap hnodup hf]
      have h9 := hc3 (f, t) hp
      rw [if_pos rfl] at h9
      exact h9
    rw [hmap, flatten_sliceTokens, fixedWidthFields_sum, List.drop_zero]
    exact List.take_of_length_le (le_of_eq hlen94)
  | euring2000plus =>
    simp only [canonicalShape, decide_eq_true_eq] at hshape
    exact roundTrip_pipe .euring2000plus value 60 (by decide) rfl hshape
      (by omega) (by omega) hvalid hfix
  | euring2020 =>
    simp only [canonicalShape, decide_eq_true_eq] at hshape
    exact roundTrip_pipe .euring2020 value 64 (by decide) euringFields_take_64.symm hshape
      (by omega) (by omega) hvalid hfix

/-- C1, counterexample to the unconditional round-trip claim:
`exampleRecord33` (a structurally valid 33-token EURING2000+ record from the
fixture values) decodes with no errors under the EURING2000+ hint, yet
serializing the decoded record does not return the original text: the
serializer emits all 60 canonical tokens and re-encodes the variable-length
integer tokens. -/
theorem roundTrip_counterexample :
    decodeIsValid exampleRecord33 (some .euring2000plus) = true ∧
      decodeThenSerialize exampleRecord33 (some .euring2000plus) ≠ .ok exampleRecord33 := by
  constructor
  · with_unfolding_all decide
  · with_unfolding_all decide

/-- C1, witness: the amended round trip holds at the 60-token
`exampleRecord60`. -/
theorem roundTrip_amended_witness :
    decodeThenSerialize exampleRecord60 (some .euring2000plus) = .ok exampleRecord60 :=
  roundTrip_amended .euring2000plus exampleRecord60 (by with_unfolding_all decide)
    (by with_unfolding_all decide) (by with_unfolding_all decide)

end Euring
